import Mathlib

/-!
Verification development for the UBC tennis-court availability scraper
(`scraper.py`, `app.py`).  The Python source is shallowly embedded below:
pure functions become Lean functions, wall-clock datetimes become integer
second counts on the booking site's local timeline, browser pages become
records of the text the code inspects, and the Supabase table becomes an
explicit list of rows threaded through the persistence functions.
-/

/-- Local wall-clock instants, measured in seconds since 1970-01-01 00:00:00
in the booking site's local timezone (naive datetimes in the source). -/
abbrev Time := Int

/-- Python `datetime.date()`: the day number of an instant (floor division, as
Python's naive datetimes sit on a linear local timeline). -/
def dateOf (t : Time) : Int := t.ediv 86400

/-- Python `datetime.hour` (0-23). -/
def hourOf (t : Time) : Int := (t.emod 86400).ediv 3600

/-- Python `datetime.minute` (0-59). -/
def minuteOf (t : Time) : Int := (t.emod 3600).ediv 60

/-- Python `datetime.second` (0-59). -/
def secondOf (t : Time) : Int := t.emod 60

/-- Gregorian leap-year test, as in Python's `calendar`/`datetime`. -/
def isLeapYear (y : Int) : Bool := y.emod 4 == 0 && (y.emod 100 != 0 || y.emod 400 == 0)

/-- Number of days in a month of the proleptic Gregorian calendar. -/
def daysInMonth (y m : Int) : Int :=
  if m = 2 then (if isLeapYear y then 29 else 28)
  else if m = 4 ∨ m = 6 ∨ m = 9 ∨ m = 11 then 30
  else 31

/-- Day number (days since 1970-01-01) of a Gregorian date, the arithmetic
`datetime.date.toordinal` performs (shifted to the Unix epoch). -/
def daysFromCivil (y m d : Int) : Int :=
  let y2 := if m ≤ 2 then y - 1 else y
  let era := y2.ediv 400
  let yoe := y2 - era * 400
  let mp := if m > 2 then m - 3 else m + 9
  let doy := (153 * mp + 2).ediv 5 + d - 1
  let doe := yoe * 365 + yoe.ediv 4 - yoe.ediv 100 + doy
  era * 146097 + doe - 719468

/-- Gregorian date `(y, m, d)` of a day number, the inverse conversion used
when the source formats a `date` with `strftime("%Y-%m-%d")`. -/
def civilFromDays (z0 : Int) : Int × Int × Int :=
  let z := z0 + 719468
  let era := z.ediv 146097
  let doe := z - era * 146097
  let yoe := (doe - doe.ediv 1460 + doe.ediv 36524 - doe.ediv 146096).ediv 365
  let y := yoe + era * 400
  let doy := doe - (365 * yoe + yoe.ediv 4 - yoe.ediv 100)
  let mp := (5 * doy + 2).ediv 153
  let d := doy - (153 * mp + 2).ediv 5 + 1
  let m := if mp < 10 then mp + 3 else mp - 9
  (if m ≤ 2 then y + 1 else y, m, d)

/-- Model of `strftime("%A")`: full weekday name of a day number
(day 0 = 1970-01-01 was a Thursday). -/
def dayName (d : Int) : String :=
  match (d.emod 7).toNat with
  | 0 => "Thursday"
  | 1 => "Friday"
  | 2 => "Saturday"
  | 3 => "Sunday"
  | 4 => "Monday"
  | 5 => "Tuesday"
  | _ => "Wednesday"

/-- Model of `strftime("%a")`: abbreviated weekday name of a day number. -/
def dayAbbrev (d : Int) : String :=
  match (d.emod 7).toNat with
  | 0 => "Thu"
  | 1 => "Fri"
  | 2 => "Sat"
  | 3 => "Sun"
  | 4 => "Mon"
  | 5 => "Tue"
  | _ => "Wed"

example : daysFromCivil 2025 12 17 = 20439 := by decide
example : civilFromDays 20439 = (2025, 12, 17) := by decide
example : dayName 20439 = "Wednesday" := by decide
example : daysFromCivil 1970 1 1 = 0 := by decide
example : civilFromDays 0 = (1970, 1, 1) := by decide

/-! ### String helpers (Python `str` methods and `re` searches, on ASCII text) -/

/-- Whitespace characters recognised by Python's `\s` and `str.strip()`
(ASCII range, which is all the scraped text uses). -/
def isWsChar (c : Char) : Bool :=
  c = ' ' || c = '\t' || c = '\n' || c = '\r' || c = Char.ofNat 11 || c = Char.ofNat 12

/-- Python `str.strip()` on a character list. -/
def stripL (l : List Char) : List Char :=
  ((l.dropWhile isWsChar).reverse.dropWhile isWsChar).reverse

/-- Python `str.strip()`. -/
def stripStr (s : String) : String := String.mk (stripL s.toList)

/-- Python `str.lower()` (ASCII). -/
def lowerStr (s : String) : String := String.mk (s.toList.map Char.toLower)

/-- Does `hay` start with `needle`? -/
def startsWithL : List Char → List Char → Bool
  | [], _ => true
  | _ :: _, [] => false
  | a :: as, b :: bs => a = b && startsWithL as bs

/-- Python's `needle in hay` substring test, on character lists. -/
def infixOfL (needle : List Char) : List Char → Bool
  | [] => needle.isEmpty
  | c :: cs => startsWithL needle (c :: cs) || infixOfL needle cs

/-- Python's `needle in hay` substring test. -/
def strContains (hay needle : String) : Bool := infixOfL needle.toList hay.toList

/-- Case-insensitive substring test (a search with `re.IGNORECASE`). -/
def strContainsCI (hay needle : String) : Bool :=
  infixOfL (needle.toList.map Char.toLower) (hay.toList.map Char.toLower)

/-- Numeric value of a digit string, Python's `int(...)` on `\d+` matches. -/
def natOfDigits (l : List Char) : Nat :=
  l.foldl (fun acc c => acc * 10 + (c.toNat - '0'.toNat)) 0

example : stripStr "  Book Now " = "Book Now" := by decide
example : lowerStr "Book NOW" = "book now" := by decide
example : strContains "xbookable 24hrs" "bookable 24hrs" = true := by decide
example : strContains "abc" "abd" = false := by decide
example : natOfDigits ['0', '1', '2'] = 12 := by decide

/-! ### The `re` searches used by the scraper -/

/-- After the literal `Court` was consumed: match `\s+` followed by the
literal digit text `digits` (used for the patterns `Court\s+01`,
`Court\s+1`, `Court\s+01` the verifier builds).  Since the continuation
starts with a digit, the greedy `\s+` consumes exactly the whitespace run. -/
def wsThenLit (digits : List Char) : List Char → Bool
  | [] => false
  | c :: cs => isWsChar c && startsWithL digits (cs.dropWhile isWsChar)

/-- Model of `re.search` for `Court\s+<digits>` with `re.IGNORECASE`:
scan every position for a case-insensitive `court`, whitespace, then the
literal digit text.  Nothing bounds the digits on the right, exactly like
the source's patterns. -/
def courtSearchL (digits : List Char) : List Char → Bool
  | [] => false
  | c :: cs =>
    (startsWithL ['c', 'o', 'u', 'r', 't'] ((c :: cs).map Char.toLower)
      && wsThenLit digits ((c :: cs).drop 5))
    || courtSearchL digits cs

/-- One attempted match of `Court\s+\d+` (`re.IGNORECASE`) at the head of
the list; on success returns the remainder after the greedy match. -/
def courtMatchRem (l : List Char) : Option (List Char) :=
  if (l.take 5).map Char.toLower = ['c', 'o', 'u', 'r', 't'] then
    if ((l.drop 5).takeWhile isWsChar).isEmpty then none
    else if (((l.drop 5).dropWhile isWsChar).takeWhile Char.isDigit).isEmpty then none
    else some (((l.drop 5).dropWhile isWsChar).dropWhile Char.isDigit)
  else none

/-- The `re.findall` scanning for `countCourtL`, with explicit fuel.  Each step
either consumes a whole greedy match (at least five characters) or advances
one position, so fuel `l.length` is never exhausted. -/
def countCourtAux : Nat → List Char → Nat
  | 0, _ => 0
  | fuel + 1, l =>
    match courtMatchRem l with
    | some r => 1 + countCourtAux fuel r
    | none =>
      match l with
      | [] => 0
      | _ :: cs => countCourtAux fuel cs

/-- Model of `len(re.findall(r'Court\s+\d+', text, re.IGNORECASE))`: the number of
non-overlapping matches, scanning resuming after each greedy match. -/
def countCourtL (l : List Char) : Nat := countCourtAux l.length l

example : courtSearchL ['1'] "see Court 12 here".toList = true := by decide
example : courtSearchL ['0', '2'] "Court 12".toList = false := by decide
example : countCourtL "Court 1, court 2 and COURT 33".toList = 3 := by decide
example : countCourtL "Court one".toList = 0 := by decide

/-- Continuation of the scraper's time regex after the 1-2 hour digits:
matches `:00\s*(AM|PM)` (case-sensitive) and returns the meridiem group. -/
def afterColon00 : List Char → Option String
  | ':' :: '0' :: '0' :: rest =>
    match rest.dropWhile isWsChar with
    | 'A' :: 'M' :: _ => some "AM"
    | 'P' :: 'M' :: _ => some "PM"
    | _ => none
  | _ => none

/-- Model of `re.search(r'(\d{1,2}):00\s*(AM|PM)', title)`: first match, scanning
left to right and preferring two hour digits over one at each position.
Returns the matched digit text (group 1, verbatim) and `AM`/`PM` (group 2). -/
def timeMatchL : List Char → Option (String × String)
  | [] => none
  | c0 :: rest =>
    match
      (match rest with
       | c1 :: rest2 =>
         if c0.isDigit && c1.isDigit then
           (afterColon00 rest2).map (fun ap => (String.mk [c0, c1], ap))
         else none
       | [] => none) with
    | some r => some r
    | none =>
      match (if c0.isDigit then (afterColon00 rest).map (fun ap => (String.mk [c0], ap)) else none) with
      | some r => some r
      | none => timeMatchL rest

example : timeMatchL "03:00 PM-04:00 PM".toList = some ("03", "PM") := by decide
example : timeMatchL "x 3:00PM".toList = some ("3", "PM") := by decide
example : timeMatchL "103:00 PM".toList = some ("03", "PM") := by decide
example : timeMatchL "3:15 PM".toList = none := by decide

/-- Continuation of `app._parse_time`'s fallback regex after the hour
digits: matches `:(\d{2})\s*(AM|PM|am|pm)` and returns the minute value and
the upper-cased meridiem (the source applies `.upper()` to group 3). -/
def afterColonMM : List Char → Option (Nat × String)
  | ':' :: d1 :: d2 :: rest =>
    if d1.isDigit && d2.isDigit then
      match rest.dropWhile isWsChar with
      | 'A' :: 'M' :: _ => some (natOfDigits [d1, d2], "AM")
      | 'P' :: 'M' :: _ => some (natOfDigits [d1, d2], "PM")
      | 'a' :: 'm' :: _ => some (natOfDigits [d1, d2], "AM")
      | 'p' :: 'm' :: _ => some (natOfDigits [d1, d2], "PM")
      | _ => none
    else none
  | _ => none

/-- Model of `re.search(r'(\d{1,2}):(\d{2})\s*(AM|PM|am|pm)', value)`: first match;
returns (hour value, minute value, upper-cased meridiem). -/
def fallbackMatch : List Char → Option (Nat × Nat × String)
  | [] => none
  | c0 :: rest =>
    match
      (match rest with
       | c1 :: rest2 =>
         if c0.isDigit && c1.isDigit then
           (afterColonMM rest2).map (fun (r : Nat × String) => (natOfDigits [c0, c1], r.1, r.2))
         else none
       | [] => none) with
    | some r => some r
    | none =>
      match (if c0.isDigit then (afterColonMM rest).map (fun (r : Nat × String) => (natOfDigits [c0], r.1, r.2)) else none) with
      | some r => some r
      | none => fallbackMatch rest

example : fallbackMatch "around 2:30 pm ok".toList = some (2, 30, "PM") := by decide
example : fallbackMatch "99:30 AM or 3:00 PM".toList = some (99, 30, "AM") := by decide
example : fallbackMatch "nothing here".toList = none := by decide

/-- After a case-insensitive `Court` was consumed: match `\s+0?(\d+)` and
return `int(group(1))`.  The optional `0` absorbs one leading zero when at
least one digit follows it, exactly as the backtracking regex behaves. -/
def courtNumAfter (l : List Char) : Option Nat :=
  match l with
  | [] => none
  | c :: cs =>
    if isWsChar c then
      match (cs.dropWhile isWsChar).takeWhile Char.isDigit with
      | [] => none
      | d :: ds => if d = '0' ∧ ds ≠ [] then some (natOfDigits ds) else some (natOfDigits (d :: ds))
    else none

/-- Model of `re.search(r'Court\s+0?(\d+)', name, re.IGNORECASE)` followed by
`int(group(1))`: the court number embedded in a court label. -/
def findCourtNumIn : List Char → Option Nat
  | [] => none
  | c :: cs =>
    match
      (if ((c :: cs).take 5).map Char.toLower = ['c', 'o', 'u', 'r', 't'] then
        courtNumAfter ((c :: cs).drop 5)
      else none) with
    | some n => some n
    | none => findCourtNumIn cs

example : findCourtNumIn "Court 01".toList = some 1 := by decide
example : findCourtNumIn "Court 12".toList = some 12 := by decide
example : findCourtNumIn "the court  007 x".toList = some 7 := by decide
example : findCourtNumIn "Centre".toList = none := by decide

/-! ### `datetime.strptime` for the formats the source uses -/

/-- Read 1-2 digits (greedy), as CPython's `%m`/`%d`/`%H`/`%I`/`%M`
patterns do; out-of-range values are rejected afterwards, which for these
formats coincides with CPython's in-regex range alternations. -/
def readNat2 : List Char → Option (Nat × List Char)
  | [] => none
  | c0 :: rest =>
    if c0.isDigit then
      match rest with
      | c1 :: rest2 => if c1.isDigit then some (natOfDigits [c0, c1], rest2) else some (natOfDigits [c0], rest)
      | [] => some (natOfDigits [c0], [])
    else none

/-- Read exactly 4 digits (`%Y`). -/
def readNat4 : List Char → Option (Nat × List Char)
  | c0 :: c1 :: c2 :: c3 :: rest =>
    if c0.isDigit && c1.isDigit && c2.isDigit && c3.isDigit then
      some (natOfDigits [c0, c1, c2, c3], rest)
    else none
  | _ => none

/-- Read one literal character. -/
def readChar (c : Char) : List Char → Option (List Char)
  | [] => none
  | c0 :: rest => if c0 = c then some rest else none

/-- Read at least one whitespace character (a literal space in a
`strptime` format matches `\s+`). -/
def readWs : List Char → Option (List Char)
  | [] => none
  | c0 :: rest => if isWsChar c0 then some (rest.dropWhile isWsChar) else none

/-- Read `%p` case-insensitively (CPython compiles the whole format with
`re.IGNORECASE`); returns `true` for PM. -/
def readAmPmCI : List Char → Option (Bool × List Char)
  | c0 :: c1 :: rest =>
    if c0.toLower = 'a' ∧ c1.toLower = 'm' then some (false, rest)
    else if c0.toLower = 'p' ∧ c1.toLower = 'm' then some (true, rest)
    else none
  | _ => none

/-- Is `(y, m, d)` a constructible `datetime.date` (year 1-9999)? -/
def validDate (y m d : Nat) : Bool :=
  1 ≤ y && y ≤ 9999 && 1 ≤ m && m ≤ 12 && 1 ≤ d && (d : Int) ≤ daysInMonth y m

/-- The instant for calendar fields (seconds granularity). -/
def mkTime (y m d h mi : Nat) : Time :=
  daysFromCivil y m d * 86400 + (h : Int) * 3600 + (mi : Int) * 60

/-- CPython's 12-hour conversion for `%I` with `%p`. -/
def hour12To24 (h : Nat) (pm : Bool) : Nat :=
  if pm ∧ h ≠ 12 then h + 12 else if ¬pm ∧ h = 12 then 0 else h

/-- Model of `datetime.strptime(s, "%Y-%m-%d %H:%M")` (must consume the whole
string, all fields in range). -/
def parseYMD_HM (l : List Char) : Option Time := do
  let (y, l) ← readNat4 l
  let l ← readChar '-' l
  let (m, l) ← readNat2 l
  let l ← readChar '-' l
  let (d, l) ← readNat2 l
  let l ← readWs l
  let (h, l) ← readNat2 l
  let l ← readChar ':' l
  let (mi, l) ← readNat2 l
  if l = [] ∧ validDate y m d ∧ h ≤ 23 ∧ mi ≤ 59 then some (mkTime y m d h mi) else none

/-- Model of `datetime.strptime(s, "%Y-%m-%d %I:%M %p")`. -/
def parseYMD_IMp (l : List Char) : Option Time := do
  let (y, l) ← readNat4 l
  let l ← readChar '-' l
  let (m, l) ← readNat2 l
  let l ← readChar '-' l
  let (d, l) ← readNat2 l
  let l ← readWs l
  let (h, l) ← readNat2 l
  let l ← readChar ':' l
  let (mi, l) ← readNat2 l
  let l ← readWs l
  let (pm, l) ← readAmPmCI l
  if l = [] ∧ validDate y m d ∧ 1 ≤ h ∧ h ≤ 12 ∧ mi ≤ 59 then
    some (mkTime y m d (hour12To24 h pm) mi)
  else none

/-- Model of `datetime.strptime` for the four `"%m<sep>%d<sep>%Y %I:%M %p"` /
`"%d<sep>%m<sep>%Y %I:%M %p"` variants `_parse_time` tries. -/
def parseNumNumY_IMp (sep : Char) (dayFirst : Bool) (l : List Char) : Option Time := do
  let (a, l) ← readNat2 l
  let l ← readChar sep l
  let (b, l) ← readNat2 l
  let l ← readChar sep l
  let (y, l) ← readNat4 l
  let l ← readWs l
  let (h, l) ← readNat2 l
  let l ← readChar ':' l
  let (mi, l) ← readNat2 l
  let l ← readWs l
  let (pm, l) ← readAmPmCI l
  let m := if dayFirst then b else a
  let d := if dayFirst then a else b
  if l = [] ∧ validDate y m d ∧ 1 ≤ h ∧ h ≤ 12 ∧ mi ≤ 59 then
    some (mkTime y m d (hour12To24 h pm) mi)
  else none

example : parseYMD_IMp "2025-12-17 09:00 AM".toList = some (20439 * 86400 + 9 * 3600) := by decide
example : parseYMD_HM "2025-12-17 21:30".toList = some (20439 * 86400 + 21 * 3600 + 30 * 60) := by decide
example : parseYMD_HM "2025-12-17 21:30 PM".toList = none := by decide
example : parseYMD_IMp "2025-12-18 13:00 PM".toList = none := by decide

/-- The two formats `clean_and_upload_to_supabase` and
`process_notifications` try, in order: `"%Y-%m-%d %I:%M %p"` then
`"%Y-%m-%d %H:%M"`. -/
def parseCleanTime (s : String) : Option Time :=
  match parseYMD_IMp s.toList with
  | some t => some t
  | none => parseYMD_HM s.toList

/-- Result of `app._parse_time`: a datetime, `None`, or an uncaught
`ValueError` escaping the function (`raised`). -/
inductive ParseOutcome where
  | parsed (t : Time)
  | noTime
  | raised
deriving DecidableEq, Repr

/-- The six full `strptime` patterns `_parse_time` tries on the stripped
string, in source order. -/
def tryFormatsApp (s : String) : Option Time :=
  let l := stripL s.toList
  match parseYMD_HM l with
  | some t => some t
  | none =>
    match parseYMD_IMp l with
    | some t => some t
    | none =>
      match parseNumNumY_IMp '/' false l with
      | some t => some t
      | none =>
        match parseNumNumY_IMp '-' false l with
        | some t => some t
        | none =>
          match parseNumNumY_IMp '/' true l with
          | some t => some t
          | none => parseNumNumY_IMp '-' true l

/-- The 12-to-24-hour adjustment `_parse_time` applies to a fallback
match: PM adds 12 except at 12, 12 AM becomes 0. -/
def pyAdjHour (h : Nat) (ap : String) : Nat :=
  if ap = "PM" ∧ h ≠ 12 then h + 12 else if ap = "AM" ∧ h = 12 then 0 else h

/-- Model of `app._parse_time(value)`.  `now` is `datetime.now()` (the fallback
keeps today's date and zeroes seconds/microseconds).  A fallback match
whose adjusted hour or minute is out of range makes the source's
`datetime.replace` raise an uncaught `ValueError`. -/
def parse_time (now : Time) (value : String) : ParseOutcome :=
  if value = "" then .noTime
  else
    match tryFormatsApp value with
    | some t => .parsed t
    | none =>
      match fallbackMatch value.toList with
      | some (h, mi, ap) =>
        if pyAdjHour h ap ≤ 23 ∧ mi ≤ 59 then
          .parsed (dateOf now * 86400 + (pyAdjHour h ap : Int) * 3600 + (mi : Int) * 60)
        else .raised
      | none => .noTime

example : parse_time 0 "2025-12-17 09:00 AM" = .parsed (20439 * 86400 + 9 * 3600) := by decide
example : parse_time (20439 * 86400 + 7200) "open at 3:00 PM!" = .parsed (20439 * 86400 + 15 * 3600) := by decide
example : parse_time 0 "99:30 AM or 3:00 PM" = .raised := by decide
example : parse_time 0 "no time at all" = .noTime := by decide
example : parse_time 0 "" = .noTime := by decide

/-! ### PageNavigator verification (`scraper._verify_court_on_page`) -/

/-- The page content `_verify_court_on_page` inspects: `page.title()`, the
inner text of each `h1..h6` heading, `page.inner_text("body")` and
`page.url`.  `hasScheduler` records whether `wait_for_selector("#scheduler")`
succeeds (used by `_scrape_court_schedule`). -/
structure PageState where
  title : String
  headings : List String
  body : String
  url : String
  hasScheduler : Bool
deriving DecidableEq, Repr

/-- Zero-padded `f"{n:02d}"`. -/
def pad2Nat (n : Nat) : String := if n < 10 then "0" ++ toString n else toString n

/-- The digit texts of the three patterns `_verify_court_on_page` builds
for court number `n`: `Court\s+{n:02d}`, `Court\s+{n}`, `Court\s+0{n}`. -/
def courtPatterns (n : Nat) : List (List Char) :=
  [(pad2Nat n).toList, (toString n).toList, '0' :: (toString n).toList]

/-- Model of `scraper._verify_court_on_page(page, court_name)`: true when the page
title, any heading, the body text (only when the body mentions at most two
`Court N` labels), or the URL matches one of the court-number patterns
(or, for a label without a number, contains the label itself). -/
def verify_court_on_page (p : PageState) (court_name : String) : Bool :=
  let hit : String → Bool :=
    match findCourtNumIn court_name.toList with
    | some n => fun text => (courtPatterns n).any (fun d => courtSearchL d text.toList)
    | none => fun text => strContainsCI text court_name
  hit p.title
    || p.headings.any hit
    || (hit p.body && countCourtL p.body.toList ≤ 2)
    || hit p.url

example : verify_court_on_page ⟨"Court 01 - Schedule", [], "", "", true⟩ "Court 01" = true := by decide
example : verify_court_on_page ⟨"Court 02 - Schedule", [], "", "", true⟩ "Court 01" = false := by decide
example : verify_court_on_page ⟨"Court 12 - Schedule", [], "", "", true⟩ "Court 01" = true := by decide

/-! ### SlotExtractor (`scraper._scrape_court_schedule`) -/

/-- A `span[title]` element inside a scheduler gridcell: its `title`
attribute and inner text. -/
structure SpanEl where
  title : String
  text : String
deriving DecidableEq, Repr

/-- A `[role='gridcell']` element of the `#scheduler` container: its
nested title-bearing spans, its computed CSS `left` in pixels (none when
the evaluation throws, which the source defaults to offset 0), its first
`a[href]` target if any, and its `onclick` attribute if any.  The pixel
offsets the scheduler lays out are whole numbers, so `left` is modelled as
an integer and the source's float arithmetic on it is exact. -/
structure CellEl where
  spans : List SpanEl
  left : Option Int
  href : Option String
  onclick : Option String
deriving DecidableEq, Repr

/-- Python 3 `round(n / d)` for `d > 0` (banker's rounding at halves),
computed exactly on integers. -/
def pyRoundDiv (n d : Int) : Int :=
  let f := n.ediv d
  let r := n - d * f
  if 2 * r < d then f else if d < 2 * r then f + 1 else if f.emod 2 = 0 then f else f + 1

example : pyRoundDiv 624 208 = 3 := by decide
example : pyRoundDiv 5 2 = 2 := by decide
example : pyRoundDiv 7 2 = 4 := by decide

/-- The day-offset computation from the gridcell's CSS `left`: offset 0 if
unavailable or `left ≤ 10`, else `int(round((left - 2) / 208))`. -/
def dayOffsetOf (left : Option Int) : Int :=
  match left with
  | none => 0
  | some l => if l ≤ 10 then 0 else pyRoundDiv (l - 2) 208

/-- The bookable-phrase classification of a span's stripped, lower-cased
inner text; returns the slot status when bookable. -/
def classifySpan (txt : String) : Option String :=
  if strContains txt "bookable 24hrs in advance" || strContains txt "bookable 24 hours in advance" then
    some "Bookable in 24h"
  else if strContains txt "book now" || (strContains txt "book" && txt.length < 50) then
    some "Open"
  else none

/-- The quoted-URL extraction
`re.search(r'["\']([^"\']*perfectmind[^"\']*)["\']', onclick)`: the first
quote-delimited, quote-free run containing `perfectmind`. -/
def quotedPerfectmind : List Char → Option String
  | [] => none
  | c :: cs =>
    if c = '"' ∨ c = '\'' then
      match
        (if ((cs.takeWhile (fun d => !(d = '"' ∨ d = '\''))).length < cs.length)
            && infixOfL "perfectmind".toList (cs.takeWhile (fun d => !(d = '"' ∨ d = '\''))) then
          some (String.mk (cs.takeWhile (fun d => !(d = '"' ∨ d = '\''))))
        else none) with
      | some u => some u
      | none => quotedPerfectmind cs
    else quotedPerfectmind cs

example : quotedPerfectmind "go('https://x.perfectmind.com/a',1)".toList
    = some "https://x.perfectmind.com/a" := by decide
example : quotedPerfectmind "go('https://x.example.com/a',1)".toList = none := by decide

/-- The action-link resolution for a gridcell: an explicit `a[href]`, else
a `perfectmind` URL quoted in `onclick`, else the current page URL. -/
def resolveLink (pageUrl : String) (cell : CellEl) : String :=
  match cell.href with
  | some h => h
  | none =>
    match cell.onclick with
    | some oc =>
      match quotedPerfectmind oc.toList with
      | some u => u
      | none => pageUrl
    | none => pageUrl

/-- Zero-padded 4-digit year, as glibc `strftime("%Y")` renders the years
in range. -/
def pad4Year (y : Int) : String :=
  if y < 0 then toString y
  else if y < 10 then "000" ++ toString y
  else if y < 100 then "00" ++ toString y
  else if y < 1000 then "0" ++ toString y
  else toString y

/-- Zero-padded month/day component (values here are 1-31). -/
def pad2Int (n : Int) : String := if 0 ≤ n ∧ n < 10 then "0" ++ toString n else toString n

/-- Python `date.strftime("%Y-%m-%d")` of a day number. -/
def formatDate (d : Int) : String :=
  pad4Year (civilFromDays d).1 ++ "-" ++ pad2Int (civilFromDays d).2.1 ++ "-" ++ pad2Int (civilFromDays d).2.2

example : formatDate 20439 = "2025-12-17" := by decide

/-- One availability record emitted by `_scrape_court_schedule`, the
spec's `Slot`: the five dictionary fields of the source plus the `start`
timestamp the spec's data model carries (the datetime value the code
computed for the range filter; `none` when the `datetime` construction
raised and the record was included unfiltered). -/
structure ScrapedSlot where
  court : String
  time : String
  status : String
  link : String
  raw_text : String
  start : Option Time
deriving DecidableEq, Repr

/-- The final filter-and-emit step of one span (`scraper.py` lines
531-565): a record with a constructed datetime is dropped when it is
strictly beyond `now + 72h` or strictly before `now`; a record whose
datetime construction raised (`st? = none`) bypasses the filter and is
included. -/
def mkSlotRecord (court_name dtStr status link rawText : String) (now : Time)
    (st? : Option Time) : Option ScrapedSlot :=
  let keep : Bool :=
    match st? with
    | some st => !(st > now + 259200) && !(st < now)
    | none => true
  if keep then
    some { court := court_name, time := dtStr, status := status,
           link := link, raw_text := rawText, start := st? }
  else none

/-- Processing of one title-bearing span inside one gridcell
(`scraper.py` lines 459-572): skip unless the title holds a time range and
the text a bookable phrase; extract `h:00 AM/PM`; resolve the calendar day
from the cell's `left` offset; build the datetime and drop the record when
it falls outside `[now, now + 72h]`; a failed datetime construction (e.g.
hour 13 with PM) is logged and the record included anyway. -/
def processSpan (pageUrl : String) (now : Time) (today : Int) (court_name : String)
    (cell : CellEl) (sp : SpanEl) : Option ScrapedSlot :=
  if sp.title = "" then none
  else if ¬(strContains sp.title "AM" || strContains sp.title "PM") then none
  else
    match classifySpan (lowerStr (stripStr sp.text)) with
    | none => none
    | some status =>
      match timeMatchL sp.title.toList with
      | none => none
      | some (g1, ap) =>
        let slotDate := today + dayOffsetOf cell.left
        let dtStr := formatDate slotDate ++ " " ++ g1 ++ ":00 " ++ ap
        let hour := natOfDigits g1.toList
        let h24 := if ap = "PM" ∧ hour ≠ 12 then hour + 12 else if ap = "AM" ∧ hour = 12 then 0 else hour
        mkSlotRecord court_name dtStr status (resolveLink pageUrl cell) sp.text now
          (if h24 ≤ 23 then some (slotDate * 86400 + (h24 : Int) * 3600) else none)

/-- The inputs of one `_scrape_court_schedule` call: the loaded page and
its scheduler gridcells, and the current Vancouver wall-clock instant. -/
structure ScrapeCtx where
  page : PageState
  now : Time
  cells : List CellEl
deriving DecidableEq, Repr

/-- Model of `scraper._scrape_court_schedule(page, court_name)`: returns `[]` when
the court verification fails or no `#scheduler` container appears;
otherwise emits the records of every bookable span of every gridcell. -/
def scrape_court_schedule (ctx : ScrapeCtx) (court_name : String) : List ScrapedSlot :=
  if ¬verify_court_on_page ctx.page court_name then []
  else if ¬ctx.page.hasScheduler then []
  else
    ctx.cells.flatMap (fun cell =>
      cell.spans.filterMap (processSpan ctx.page.url ctx.now (dateOf ctx.now) court_name cell))

/-! ### Persistence (`scraper.clean_and_upload_to_supabase`) -/

/-- A raw slot record as stored in the JSON cache and consumed by
`app.py` / the upload and notification passes: the five dictionary keys.
`link` is optional to model records without the key. -/
structure SlotRec where
  court : String
  time : String
  status : String
  link : Option String
  raw_text : String
deriving DecidableEq, Repr

/-- A row of the Supabase `court_slots` table.  `start_time` is the parsed
timestamp (stored as an ISO string by the source; ISO order equals
timestamp order), `updated_at` the upload instant. -/
structure SupabaseRow where
  court_name : String
  start_time : Time
  status : String
  booking_link : String
  raw_text : String
  updated_at : Time
deriving DecidableEq, Repr

/-- The per-record cleaning step of `clean_and_upload_to_supabase`:
records with an empty or unparseable `time` are skipped. -/
def cleanRow (nowUtc : Time) (item : SlotRec) : Option SupabaseRow :=
  if item.time = "" then none
  else
    match parseCleanTime item.time with
    | none => none
    | some t =>
      some { court_name := item.court, start_time := t, status := item.status,
             booking_link := item.link.getD "", raw_text := item.raw_text, updated_at := nowUtc }

/-- Model of `scraper.clean_and_upload_to_supabase(json_data)`, with the Supabase
table made explicit: `store` is the table before the call, `deleteOk`
models whether the truncation's delete request succeeds, `insertOk`
whether the insert request succeeds, and the result is the table after
the call together with the boolean the function returns.  The source
first tries to delete every row with `start_time >= 1970-01-01` (its
truncation step) — a failure there is caught and logged
("Proceeding with insert anyway"), leaving the old rows in place — then
returns `False` if no rows were cleaned, and only then inserts. -/
def clean_and_upload_to_supabase (store : List SupabaseRow) (json_data : List SlotRec)
    (nowUtc : Time) (deleteOk insertOk : Bool) : List SupabaseRow × Bool :=
  let clean_rows := json_data.filterMap (cleanRow nowUtc)
  let truncated := if deleteOk then store.filter (fun r => ¬(r.start_time ≥ 0)) else store
  if clean_rows.isEmpty then (truncated, false)
  else if insertOk then (truncated ++ clean_rows, true)
  else (truncated, false)

/-! ### NotificationMatcher (`scraper.process_notifications`) -/

/-- A row of the `subscriptions` table. -/
structure Subscription where
  chat_id : String
  day_of_week : String
  start_hour : Int
  end_hour : Int
deriving DecidableEq, Repr

/-- One outbound Telegram send attempt: the spec's `NotificationRequest`
(chatId, Slot, Subscription). -/
structure NotificationRequest where
  chat_id : String
  slot : SlotRec
  sub : Subscription
deriving DecidableEq, Repr

/-- Day-of-week name and hour of a slot's parsed time, the values
`process_notifications` computes with `strftime("%A")` and `.hour`
(no timezone re-conversion); `none` when the `time` string is empty or
matches neither format. -/
def slotDayHour (s : SlotRec) : Option (String × Int) :=
  if s.time = "" then none
  else
    match parseCleanTime s.time with
    | none => none
    | some t => some (dayName (dateOf t), hourOf t)

/-- The send attempts one slot generates: one per subscription whose day
matches and whose inclusive hour range contains the slot's hour. -/
def notifFor (subs : List Subscription) (s : SlotRec) : List NotificationRequest :=
  match slotDayHour s with
  | none => []
  | some (d, h) =>
    subs.filterMap (fun sub =>
      if d = sub.day_of_week ∧ sub.start_hour ≤ h ∧ h ≤ sub.end_hour then
        some ⟨sub.chat_id, s, sub⟩
      else none)

/-- Model of `scraper.process_notifications(new_slots)` with the subscription
snapshot explicit: the list of send attempts, in slot-major order.  A
failed send is logged and does not affect later attempts, so the attempt
list is exactly this list regardless of dispatch outcomes. -/
def process_notifications (new_slots : List SlotRec) (subs : List Subscription) :
    List NotificationRequest :=
  new_slots.flatMap (notifFor subs)

/-- The spec's matching predicate, written from its words: match iff
`slot.dayOfWeek == sub.dayOfWeek` and `sub.startHour ≤ slot.hour ≤
sub.endHour`, the day and hour being derived in the extraction timezone
(unparseable slots match nothing). -/
def specMatch (s : SlotRec) (sub : Subscription) : Bool :=
  match slotDayHour s with
  | none => false
  | some (d, h) => d = sub.day_of_week && sub.start_hour ≤ h && h ≤ sub.end_hour

example :
    process_notifications [⟨"Court 01", "2025-12-17 09:00 AM", "Open", some "L", ""⟩]
      [⟨"c1", "Wednesday", 8, 22⟩] =
    [⟨"c1", ⟨"Court 01", "2025-12-17 09:00 AM", "Open", some "L", ""⟩, ⟨"c1", "Wednesday", 8, 22⟩⟩] := by decide

/-! ### SlotAggregator (`app.py`) -/

/-- A record paired with its parsed datetime, the `(item, dt)` tuples the
aggregation functions build. -/
abbrev PRec := SlotRec × Time

/-- The `parsed = [(item, _parse_time(item["time"])) for item in data]`
comprehension followed by the `None` filter.  A record whose fallback
parse raises propagates the exception out of the aggregation function,
modelled as `Except.error`. -/
def parseList (now : Time) : List SlotRec → Except Unit (List PRec)
  | [] => .ok []
  | r :: rs =>
    match parse_time now r.time with
    | .raised => .error ()
    | .noTime => parseList now rs
    | .parsed t =>
      match parseList now rs with
      | .ok ps => .ok ((r, t) :: ps)
      | .error e => .error e

/-- Stable insertion of `a` before the first element not `le`-below it. -/
def insertByLe (le : α → α → Bool) (a : α) : List α → List α
  | [] => [a]
  | b :: bs => if le a b then a :: b :: bs else b :: insertByLe le a bs

/-- Stable sort by `le` (insertion sort).  Python's `list.sort` is also a
stable sort, and a stable sort by a total preorder is extensionally
unique, so this is the same function. -/
def stableSortBy (le : α → α → Bool) (l : List α) : List α := l.foldr (insertByLe le) []

/-- The key comparison of `parsed.sort(key=lambda x: x[1])`: by parsed
datetime only. -/
def dtLE (a b : PRec) : Bool := decide (a.2 ≤ b.2)

/-- The sort `parsed.sort(key=lambda x: x[1])`. -/
def sortParsed (l : List PRec) : List PRec := stableSortBy dtLE l

example : stableSortBy (fun a b => decide (a ≤ b)) [3, 1, 2] = [1, 2, 3] := by decide

/-- Model of `app._format_readable_date(dt)`: e.g. `Wed 17th 2025`. -/
def formatReadableDate (t : Time) : String :=
  dayAbbrev (dateOf t) ++ " " ++ toString (civilFromDays (dateOf t)).2.2
    ++ (if 10 ≤ (civilFromDays (dateOf t)).2.2.emod 100 ∧ (civilFromDays (dateOf t)).2.2.emod 100 ≤ 20 then "th"
        else if (civilFromDays (dateOf t)).2.2.emod 10 = 1 then "st"
        else if (civilFromDays (dateOf t)).2.2.emod 10 = 2 then "nd"
        else if (civilFromDays (dateOf t)).2.2.emod 10 = 3 then "rd"
        else "th")
    ++ " " ++ pad4Year (civilFromDays (dateOf t)).1

/-- Model of `strftime("%I:%M%p")`. -/
def format12Clock (t : Time) : String :=
  pad2Int (if hourOf t = 0 then 12 else if hourOf t ≤ 12 then hourOf t else hourOf t - 12)
    ++ ":" ++ pad2Int (minuteOf t) ++ (if hourOf t < 12 then "AM" else "PM")

/-- Model of `app._format_single_time(dt)`. -/
def formatSingleTime (t : Time) : String := formatReadableDate t ++ " " ++ format12Clock t

/-- Model of `app._format_time_range(start_dt, end_dt)`. -/
def formatTimeRange (s e : Time) : String :=
  if dateOf s = dateOf e then
    formatReadableDate s ++ " " ++ format12Clock s ++ " - " ++ format12Clock e
  else
    formatReadableDate s ++ " " ++ format12Clock s ++ " - " ++ formatReadableDate e ++ " " ++ format12Clock e

example : formatSingleTime (20439 * 86400 + 20 * 3600) = "Wed 17th 2025 08:00PM" := by decide

/-- A `{**item, 'formatted_time': ...}` record returned by
`find_one_hour_slots`. -/
structure OneHourItem where
  item : SlotRec
  formatted_time : String
deriving DecidableEq, Repr

/-- The main loop of `app.find_one_hour_slots`: `parsed` is the full
sorted list the inner scan re-reads; `seen` is `seen_times`, the set of
`(date, hour)` keys claimed as the second hour of a detected pair.  A
record is skipped when its own `(date, hour)` is in `seen` or when some
record on the same court occupies the next hour (the check scans all of
`parsed`, including records of other courts and itself). -/
def findOneLoop (parsed : List PRec) : List PRec → List (Int × Int) → List OneHourItem → List OneHourItem
  | [], _, acc => acc
  | (item, dt) :: rest, seen, acc =>
    if (dateOf dt, hourOf dt) ∈ seen then findOneLoop parsed rest seen acc
    else
      match parsed.find? (fun q =>
          decide (dateOf q.2 = dateOf (dt + 3600) ∧ hourOf q.2 = hourOf (dt + 3600)
            ∧ item.court = q.1.court)) with
      | some _ =>
        findOneLoop parsed rest ((dateOf (dt + 3600), hourOf (dt + 3600)) :: seen) acc
      | none => findOneLoop parsed rest seen (acc ++ [⟨item, formatSingleTime dt⟩])

/-- Model of `app.find_one_hour_slots(data)` (top 3). -/
def find_one_hour_slots (now : Time) (data : List SlotRec) : Except Unit (List OneHourItem) :=
  match parseList now data with
  | .error e => .error e
  | .ok parsed0 => .ok ((findOneLoop (sortParsed parsed0) (sortParsed parsed0) [] []).take 3)

/-- The inner scan of `app.find_two_hour_slots`: the first index `j ≠ i`
whose record shares the court and sits in the next hour's `(date, hour)`
slot, skipping pairs already in `seen_pairs`. -/
def ftsFindJ (i : Nat) (a : PRec) (seen : List (Time × Time × String)) :
    List (Nat × PRec) → Option PRec
  | [] => none
  | (j, b) :: rest =>
    if decide (i ≠ j) && decide (a.1.court = b.1.court)
        && decide (dateOf b.2 = dateOf (a.2 + 3600) ∧ hourOf b.2 = hourOf (a.2 + 3600))
        && !(decide ((a.2, b.2, a.1.court) ∈ seen)) then some b
    else ftsFindJ i a seen rest

/-- The outer loop of `app.find_two_hour_slots`: no consumed set, only the
`seen_pairs` dedup; stops once three pairs are collected. -/
def ftsLoop (all : List (Nat × PRec)) :
    List (Nat × PRec) → List (Time × Time × String) → List (PRec × PRec) → List (PRec × PRec)
  | [], _, acc => acc
  | (i, a) :: rest, seen, acc =>
    match ftsFindJ i a seen all with
    | some b =>
      if (acc ++ [(a, b)]).length ≥ 3 then acc ++ [(a, b)]
      else ftsLoop all rest ((a.2, b.2, a.1.court) :: seen) (acc ++ [(a, b)])
    | none => ftsLoop all rest seen acc

/-- The `(first-hour record, second-hour record)` pairs
`find_two_hour_slots` assembles its blocks from. -/
def find_two_pairs (parsed : List PRec) : List (PRec × PRec) :=
  (ftsLoop (sortParsed parsed).enum (sortParsed parsed).enum [] []).take 3

/-- A two-hour block dictionary returned by `find_two_hour_slots`. -/
structure TwoHourItem where
  court : String
  start_time : String
  end_time : String
  formatted_time : String
  status : String
  link : String
deriving DecidableEq, Repr

/-- The block dictionary built from a pair of records. -/
def mkTwoHourItem (p : PRec × PRec) : TwoHourItem :=
  { court := p.1.1.court, start_time := p.1.1.time, end_time := p.2.1.time,
    formatted_time := formatTimeRange p.1.2 (p.2.2 + 3600),
    status := "Open (2 hours)", link := p.1.1.link.getD "#" }

/-- Model of `app.find_two_hour_slots(data)` (top 3). -/
def find_two_hour_slots (now : Time) (data : List SlotRec) : Except Unit (List TwoHourItem) :=
  match parseList now data with
  | .error e => .error e
  | .ok parsed0 => .ok ((find_two_pairs parsed0).map mkTwoHourItem)

/-- The partner condition of the pairing phase of
`app.group_slots_by_time_block`: same court, and the candidate's parsed
time sits in the `(date, hour)` cell one hour after `a`'s. -/
def isPartnerOf (a b : PRec) : Bool :=
  decide (a.1.court = b.1.court) && decide (dateOf b.2 = dateOf (a.2 + 3600))
    && decide (hourOf b.2 = hourOf (a.2 + 3600))

/-- Remove the first element satisfying `p`, returning it and the list
without it. -/
def extractFirst (p : α → Bool) : List α → Option (α × List α)
  | [] => none
  | x :: xs =>
    if p x then some (x, xs)
    else
      match extractFirst p xs with
      | some (b, ys) => some (b, x :: ys)
      | none => none

/-- The pairing loop of `group_slots_by_time_block` (lines 264-290), as a
zipper over the sorted list.  The source walks indices `i` keeping a
`processed_indices` set and, for each unconsumed `i`, scans all indices
`j ≠ i` in order for the first unconsumed partner.  Equivalently: `left`
holds the earlier, still-unconsumed records in order, `todo` the records
not yet reached; the scan searches `left` then `todo`'s tail, and a found
partner is removed (= marked processed).  `fuel` only bounds the
recursion and is never exhausted when `todo.length ≤ fuel`; out of fuel
the remaining `todo` is dropped (unreachable case).  Returns the pairs in
formation order and the unconsumed records (`left` at exhaustion) in
order — exactly the records the source's second loop groups into one-hour
time blocks. -/
def pairAuxF : Nat → List PRec → List PRec → List (PRec × PRec) × List PRec
  | _, left, [] => ([], left)
  | 0, left, _ :: _ => ([], left)
  | fuel + 1, left, a :: rest =>
    match extractFirst (isPartnerOf a) left with
    | some (b, left1) =>
      ((a, b) :: (pairAuxF fuel left1 rest).1, (pairAuxF fuel left1 rest).2)
    | none =>
      match extractFirst (isPartnerOf a) rest with
      | some (b, rest1) =>
        ((a, b) :: (pairAuxF fuel left rest1).1, (pairAuxF fuel left rest1).2)
      | none => pairAuxF fuel (left ++ [a]) rest

example :
    pairAuxF 2 []
      [(⟨"Court 01", "b", "", none, ""⟩, 39600), (⟨"Court 01", "a", "", none, ""⟩, 36000)]
    = ([((⟨"Court 01", "a", "", none, ""⟩, 36000), (⟨"Court 01", "b", "", none, ""⟩, 39600))],
       []) := by decide

/-- The pairing phase of `group_slots_by_time_block` on the sorted parsed
list: the consumed pairs and the leftover (never-consumed) records. -/
def group_pairs_leftovers (parsed : List PRec) : List (PRec × PRec) × List PRec :=
  pairAuxF (sortParsed parsed).length [] (sortParsed parsed)

/-- The two-hour pairs the grouping pass forms. -/
def group_two_hour_pairs (parsed : List PRec) : List (PRec × PRec) :=
  (group_pairs_leftovers parsed).1

/-- The records never consumed into a two-hour pair, in sorted order —
the records the one-hour time blocks are built from. -/
def group_leftovers (parsed : List PRec) : List PRec :=
  (group_pairs_leftovers parsed).2

/-- A `two_hour_slots_list` entry of `group_slots_by_time_block`. -/
structure GroupTwoHourSlot where
  start : Time
  stop : Time
  court : String
  start_time_str : String
  end_time_str : String
  link : String
deriving DecidableEq, Repr

/-- The dictionary built for a detected pair (the source's `'end'` key is
called `stop` here, `end` being reserved in Lean). -/
def mkGroupTwoHour (p : PRec × PRec) : GroupTwoHourSlot :=
  { start := p.1.2, stop := p.2.2 + 3600, court := p.1.1.court,
    start_time_str := p.1.1.time, end_time_str := p.2.1.time,
    link := p.1.1.link.getD "#" }

/-- The two-hour block dictionaries of the pairing phase. -/
def group_two_hour_blocks (parsed : List PRec) : List GroupTwoHourSlot :=
  (group_two_hour_pairs parsed).map mkGroupTwoHour

example :
    group_two_hour_pairs
      [(⟨"Court 01", "a", "", none, ""⟩, 36000), (⟨"Court 01", "b", "", none, ""⟩, 39600),
       (⟨"Court 02", "c", "", none, ""⟩, 36000)] =
    [((⟨"Court 01", "a", "", none, ""⟩, 36000), (⟨"Court 01", "b", "", none, ""⟩, 39600))] := by decide

/-- Append `a` to the group of key `k`, preserving first-seen key order
(Python dict / `defaultdict` insertion order). -/
def addToGroups [DecidableEq κ] (k : κ) (a : α) : List (κ × List α) → List (κ × List α)
  | [] => [(k, [a])]
  | (k1, as) :: rest => if k = k1 then (k1, as ++ [a]) :: rest else (k1, as) :: addToGroups k a rest

/-- Group a list by a key, keys in first-seen order and each group in
input order, as iterating a `defaultdict(list)` does. -/
def groupByKey [DecidableEq κ] (key : α → κ) (l : List α) : List (κ × List α) :=
  l.foldl (fun gs a => addToGroups (key a) a gs) []

/-- First run of digits in a string: `int(re.search(r'\d+', x).group())`.
(The source raises if a court label has no digits; such labels do not
occur, and the model defaults them to 0 when sorting.) -/
def firstNumIn : List Char → Option Nat
  | [] => none
  | c :: cs =>
    if c.isDigit then some (natOfDigits ((c :: cs).takeWhile Char.isDigit)) else firstNumIn cs

/-- Model of `sorted(courts, key=lambda x: int(re.search(r'\d+', x).group()))`. -/
def sortCourts (cs : List String) : List String :=
  stableSortBy (fun a b => decide ((firstNumIn a.toList).getD 0 ≤ (firstNumIn b.toList).getD 0)) cs

/-- Python `str.split()` (split on whitespace runs, no empty parts). -/
def splitWsAux : List Char → List Char → List (List Char)
  | [], acc => if acc = [] then [] else [acc.reverse]
  | c :: cs, acc =>
    if isWsChar c then
      (if acc = [] then splitWsAux cs [] else acc.reverse :: splitWsAux cs [])
    else splitWsAux cs (c :: acc)

/-- Model of `c.split()[-1]`: the last whitespace-separated token ("" if none —
unreachable for court labels). -/
def lastTokenOf (s : String) : String :=
  match (splitWsAux s.toList []).getLast? with
  | some t => String.mk t
  | none => ""

example : lastTokenOf "Court 07" = "07" := by decide

/-- Model of `strftime('%Y-%m-%dT%H:%M:%S')`, the FullCalendar event time format. -/
def eventTimeStr (t : Time) : String :=
  formatDate (dateOf t) ++ "T" ++ pad2Int (hourOf t) ++ ":" ++ pad2Int (minuteOf t)
    ++ ":" ++ pad2Int (secondOf t)

/-- A calendar event produced by `group_slots_by_time_block`
(`extendedProps` flattened into the record). -/
structure CalendarEvent where
  title : String
  start : String
  stop : String
  resourceId : String
  courts : List String
  isTwoHour : Bool
  link : String
deriving DecidableEq, Repr

/-- The `Court N` / `Courts N1, N2` event title. -/
def mkEventTitle (nums : List String) : String :=
  match nums with
  | [n] => "Court " ++ n
  | ns => "Courts " ++ String.intercalate ", " ns

/-- One grouped two-hour event (one `(date, hour)` block of pairs). -/
def twoHourEvent (slots : List GroupTwoHourSlot) : CalendarEvent :=
  match slots with
  | [] => ⟨"", "", "", "", [], true, ""⟩
  | first :: _ =>
    { title := mkEventTitle ((sortCourts (slots.map (fun s => s.court))).map lastTokenOf),
      start := eventTimeStr first.start, stop := eventTimeStr first.stop,
      resourceId :=
        match sortCourts (slots.map (fun s => s.court)) with
        | [c] => c
        | _ => "Multiple",
      courts := sortCourts (slots.map (fun s => s.court)), isTwoHour := true,
      link := first.link }

/-- One grouped one-hour event; `none` when re-parsing the first record's
time fails (for records that reached this point the parse already
succeeded once, so the `raised`/`noTime` branches are unreachable; the
source skips the group on `None`). -/
def oneHourEvent (now : Time) (items : List PRec) : Option CalendarEvent :=
  match items with
  | [] => none
  | first :: _ =>
    match parse_time now first.1.time with
    | .parsed start_dt =>
      some { title := mkEventTitle ((sortCourts (items.map (fun q => q.1.court))).map lastTokenOf),
             start := eventTimeStr start_dt, stop := eventTimeStr (start_dt + 3600),
             resourceId :=
               match sortCourts (items.map (fun q => q.1.court)) with
               | [c] => c
               | _ => "Multiple",
             courts := sortCourts (items.map (fun q => q.1.court)), isTwoHour := false,
             link := first.1.link.getD "#" }
    | _ => none

/-- Model of `app.group_slots_by_time_block(data)`: the calendar events — grouped
two-hour blocks first, then grouped one-hour blocks of the records the
pairing phase left unconsumed. -/
def group_slots_by_time_block (now : Time) (data : List SlotRec) : Except Unit (List CalendarEvent) :=
  match parseList now data with
  | .error e => .error e
  | .ok parsed0 =>
    .ok
      (((groupByKey (fun s => (dateOf s.start, hourOf s.start)) (group_two_hour_blocks parsed0)).map
          (fun g => twoHourEvent g.2))
        ++ ((groupByKey (fun q => (dateOf q.2, hourOf q.2)) (group_leftovers parsed0)).filterMap
          (fun g => oneHourEvent now g.2)))

/-- Model of `app.render_hero(data)`: the record displayed as the next available
slot — the parse-filtered list sorted by time, first element if any. -/
def render_hero (now : Time) (data : List SlotRec) : Except Unit (Option SlotRec) :=
  match parseList now data with
  | .error e => .error e
  | .ok parsed0 => .ok ((sortParsed parsed0).head?.map (fun p => p.1))

/-! ### Lemmas: `extractFirst` -/

theorem extractFirst_mem_prop {p : α → Bool} :
    ∀ {l : List α} {b : α} {l1 : List α}, extractFirst p l = some (b, l1) → p b = true := by
  intro l
  induction l with
  | nil => intro b l1 h; simp [extractFirst] at h
  | cons x xs ih =>
    intro b l1 h
    by_cases hx : p x = true
    · simp [extractFirst, hx] at h
      rw [← h.1]; exact hx
    · simp [extractFirst, hx] at h
      match hrec : extractFirst p xs with
      | none => rw [hrec] at h; simp at h
      | some (b2, ys) =>
        rw [hrec] at h
        simp at h
        rw [← h.1]
        exact ih hrec

theorem extractFirst_perm {p : α → Bool} :
    ∀ {l : List α} {b : α} {l1 : List α}, extractFirst p l = some (b, l1) → l.Perm (b :: l1) := by
  intro l
  induction l with
  | nil => intro b l1 h; simp [extractFirst] at h
  | cons x xs ih =>
    intro b l1 h
    by_cases hx : p x = true
    · simp [extractFirst, hx] at h
      rw [h.1, h.2]
    · simp [extractFirst, hx] at h
      match hrec : extractFirst p xs with
      | none => rw [hrec] at h; simp at h
      | some (b2, ys) =>
        rw [hrec] at h
        simp at h
        rw [← h.1, ← h.2]
        exact (List.Perm.cons x (ih hrec)).trans (List.Perm.swap b2 x ys)

theorem extractFirst_length {p : α → Bool} :
    ∀ {l : List α} {b : α} {l1 : List α}, extractFirst p l = some (b, l1) →
      l1.length + 1 = l.length := by
  intro l b l1 h
  simpa using (extractFirst_perm h).length_eq.symm

theorem extractFirst_mem {p : α → Bool} {l : List α} {b : α} {l1 : List α}
    (h : extractFirst p l = some (b, l1)) : b ∈ l :=
  (extractFirst_perm h).mem_iff.mpr (by simp)

theorem extractFirst_none_iff {p : α → Bool} :
    ∀ {l : List α}, extractFirst p l = none ↔ ∀ x ∈ l, p x = false := by
  intro l
  induction l with
  | nil => simp [extractFirst]
  | cons x xs ih =>
    by_cases hx : p x = true
    · simp [extractFirst, hx]
    · have hxf : p x = false := by simpa using hx
      cases hrec : extractFirst p xs with
      | none =>
        simp only [extractFirst, if_neg hx, hrec]
        simp only [List.mem_cons]
        constructor
        · intro _ y hy
          cases hy with
          | inl h1 => rw [h1]; exact hxf
          | inr h2 => exact ih.mp hrec y h2
        · intro _; trivial
      | some pr =>
        simp only [extractFirst, if_neg hx, hrec]
        constructor
        · intro hcon; exact absurd hcon (by simp)
        · intro hall
          have hb : p pr.1 = true := extractFirst_mem_prop (l := xs) (by rw [hrec])
          have hbm : pr.1 ∈ xs := extractFirst_mem (l := xs) (by rw [hrec])
          have := hall pr.1 (by simp [hbm])
          rw [this] at hb
          exact absurd hb (by simp)

theorem extractFirst_filter_some {p q : α → Bool} (himp : ∀ x, p x = true → q x = true) :
    ∀ {l : List α} {b : α} {l1 : List α}, extractFirst p l = some (b, l1) →
      extractFirst p (l.filter q) = some (b, l1.filter q) := by
  intro l
  induction l with
  | nil => intro b l1 h; simp [extractFirst] at h
  | cons x xs ih =>
    intro b l1 h
    by_cases hx : p x = true
    · simp [extractFirst, hx] at h
      obtain ⟨h1, h2⟩ := h
      subst h1
      subst h2
      have hqx : q x = true := himp x hx
      simp [List.filter_cons, hqx, extractFirst, hx]
    · simp [extractFirst, hx] at h
      cases hrec : extractFirst p xs with
      | none => rw [hrec] at h; simp at h
      | some pr =>
        rw [hrec] at h
        simp at h
        have hpr : extractFirst p xs = some (pr.1, pr.2) := by rw [hrec]
        have ihs := ih hpr
        by_cases hqx : q x = true
        · simp [List.filter_cons, hqx, extractFirst, hx, ihs, ← h.1, ← h.2]
        · have hqx2 : q x = false := by simpa using hqx
          simp [List.filter_cons, hqx2, ihs, ← h.1, ← h.2, hqx]

theorem extractFirst_filter_none {p q : α → Bool} {l : List α}
    (h : extractFirst p l = none) : extractFirst p (l.filter q) = none := by
  rw [extractFirst_none_iff] at h ⊢
  intro x hx
  exact h x (List.mem_of_mem_filter hx)

theorem extractFirst_filter_not {p q : α → Bool} :
    ∀ {l : List α} {b : α} {l1 : List α}, extractFirst p l = some (b, l1) → q b = false →
      l1.filter q = l.filter q := by
  intro l
  induction l with
  | nil => intro b l1 h _; simp [extractFirst] at h
  | cons x xs ih =>
    intro b l1 h hq
    by_cases hx : p x = true
    · simp [extractFirst, hx] at h
      rw [← h.1] at hq
      simp [List.filter_cons, hq, h.2]
    · simp [extractFirst, hx] at h
      cases hrec : extractFirst p xs with
      | none => rw [hrec] at h; simp at h
      | some pr =>
        rw [hrec] at h
        simp at h
        have hpr : extractFirst p xs = some (pr.1, pr.2) := by rw [hrec]
        have := ih hpr (by rw [h.1]; exact hq)
        rw [← h.2]
        simp [List.filter_cons]
        by_cases hqx : q x = true
        · simp [hqx, this]
        · have hqx2 : q x = false := by simpa using hqx
          simp [hqx2, this]

/-! ### Lemmas: the pairing phase -/

theorem pairAuxF_succ : ∀ (fuel : Nat) (left todo : List PRec), todo.length ≤ fuel →
    pairAuxF (fuel + 1) left todo = pairAuxF fuel left todo := by
  intro fuel
  induction fuel with
  | zero =>
    intro left todo h
    have : todo = [] := List.eq_nil_of_length_eq_zero (Nat.le_zero.mp h)
    subst this
    simp [pairAuxF]
  | succ g ih =>
    intro left todo h
    match todo with
    | [] => simp [pairAuxF]
    | a :: rest =>
      simp only [List.length_cons] at h
      have hr : rest.length ≤ g := by omega
      cases hel : extractFirst (isPartnerOf a) left with
      | some pr =>
        simp only [pairAuxF, hel]
        rw [ih pr.2 rest hr]
      | none =>
        cases her : extractFirst (isPartnerOf a) rest with
        | some pr =>
          have hr1 : pr.2.length ≤ g := by
            have hpr : extractFirst (isPartnerOf a) rest = some (pr.1, pr.2) := by rw [her]
            have := extractFirst_length hpr
            omega
          simp only [pairAuxF, hel, her]
          rw [ih left pr.2 hr1]
        | none =>
          simp only [pairAuxF, hel, her]
          exact ih (left ++ [a]) rest hr

theorem pairAuxF_perm : ∀ (fuel : Nat) (left todo : List PRec), todo.length ≤ fuel →
    ((pairAuxF fuel left todo).1.flatMap (fun p => [p.1, p.2])
      ++ (pairAuxF fuel left todo).2).Perm (left ++ todo) := by
  intro fuel
  induction fuel with
  | zero =>
    intro left todo h
    have : todo = [] := List.eq_nil_of_length_eq_zero (Nat.le_zero.mp h)
    subst this
    simp [pairAuxF]
  | succ g ih =>
    intro left todo h
    match todo with
    | [] => simp [pairAuxF]
    | a :: rest =>
      simp only [List.length_cons] at h
      have hr : rest.length ≤ g := by omega
      cases hel : extractFirst (isPartnerOf a) left with
      | some pr =>
        have hperm : left.Perm (pr.1 :: pr.2) := extractFirst_perm (by rw [hel])
        simp only [pairAuxF, hel, List.flatMap_cons, List.cons_append, List.append_assoc]
        have chain1 : (a :: pr.1 :: ((pairAuxF g pr.2 rest).1.flatMap (fun p => [p.1, p.2])
            ++ (pairAuxF g pr.2 rest).2)).Perm (a :: pr.1 :: (pr.2 ++ rest)) :=
          ((ih pr.2 rest hr).cons pr.1).cons a
        refine chain1.trans ?_
        have : (left ++ a :: rest).Perm ((pr.1 :: pr.2) ++ a :: rest) :=
          hperm.append_right (a :: rest)
        refine (this.trans ?_).symm
        simp only [List.cons_append]
        refine (List.perm_middle.cons pr.1).trans ?_
        exact List.Perm.swap a pr.1 (pr.2 ++ rest)
      | none =>
        cases her : extractFirst (isPartnerOf a) rest with
        | some pr =>
          have hr1 : pr.2.length ≤ g := by
            have hpr : extractFirst (isPartnerOf a) rest = some (pr.1, pr.2) := by rw [her]
            have := extractFirst_length hpr
            omega
          have hperm : rest.Perm (pr.1 :: pr.2) := extractFirst_perm (by rw [her])
          simp only [pairAuxF, hel, her, List.flatMap_cons, List.cons_append, List.append_assoc]
          have chain1 : (a :: pr.1 :: ((pairAuxF g left pr.2).1.flatMap (fun p => [p.1, p.2])
              ++ (pairAuxF g left pr.2).2)).Perm (a :: pr.1 :: (left ++ pr.2)) :=
            ((ih left pr.2 hr1).cons pr.1).cons a
          refine chain1.trans ?_
          have h2 : (left ++ a :: rest).Perm (left ++ a :: pr.1 :: pr.2) :=
            (hperm.cons a).append_left left
          refine (h2.trans ?_).symm
          refine List.perm_middle.trans ?_
          exact List.perm_middle.cons a
        | none =>
          simp only [pairAuxF, hel, her]
          have := ih (left ++ [a]) rest hr
          simpa using this

/-- A partner found by the pairing scan is on the searching record's
court. -/
theorem isPartnerOf_court {a b : PRec} (h : isPartnerOf a b = true) : b.1.court = a.1.court := by
  simp only [isPartnerOf, Bool.and_eq_true, decide_eq_true_eq] at h
  exact h.1.1.symm

/-- Membership predicate on records of court `c`. -/
def recCourt (c : String) (x : PRec) : Bool := decide (x.1.court = c)

/-- Membership predicate on pairs whose block carries court `c` (the
block's court is the first record's). -/
def blockCourt (c : String) (pr : PRec × PRec) : Bool := decide (pr.1.1.court = c)

/-- The pairing phase decomposes per court: the blocks on court `c` are
exactly the blocks obtained by pairing the court-`c` records alone.
Pairing never interacts across courts, so filtering commutes with the
whole loop. -/
theorem pairAuxF_filter_court (c : String) : ∀ (fuel : Nat) (left todo : List PRec),
    todo.length ≤ fuel →
    ((pairAuxF fuel left todo).1.filter (blockCourt c)) =
      (pairAuxF fuel (left.filter (recCourt c)) (todo.filter (recCourt c))).1 := by
  intro fuel
  induction fuel with
  | zero =>
    intro left todo h
    have : todo = [] := List.eq_nil_of_length_eq_zero (Nat.le_zero.mp h)
    subst this
    simp [pairAuxF]
  | succ g ih =>
    intro left todo h
    match todo with
    | [] => simp [pairAuxF]
    | a :: rest =>
      simp only [List.length_cons] at h
      have hr : rest.length ≤ g := by omega
      have himp : ∀ x, isPartnerOf a x = true → recCourt c x = recCourt c a := by
        intro x hx
        simp only [recCourt, isPartnerOf_court hx]
      by_cases hac : a.1.court = c
      · have hra : recCourt c a = true := by simp [recCourt, hac]
        have himp2 : ∀ x, isPartnerOf a x = true → recCourt c x = true := by
          intro x hx; rw [himp x hx]; exact hra
        rw [List.filter_cons_of_pos hra]
        cases hel : extractFirst (isPartnerOf a) left with
        | some pr =>
          have hel2 : extractFirst (isPartnerOf a) (left.filter (recCourt c))
              = some (pr.1, pr.2.filter (recCourt c)) :=
            extractFirst_filter_some himp2 (by rw [hel])
          simp only [pairAuxF, hel, hel2]
          rw [List.filter_cons_of_pos (by simp [blockCourt, hac])]
          rw [ih pr.2 rest hr]
        | none =>
          have hel2 : extractFirst (isPartnerOf a) (left.filter (recCourt c)) = none :=
            extractFirst_filter_none hel
          cases her : extractFirst (isPartnerOf a) rest with
          | some pr =>
            have hr1 : pr.2.length ≤ g := by
              have hpr : extractFirst (isPartnerOf a) rest = some (pr.1, pr.2) := by rw [her]
              have := extractFirst_length hpr
              omega
            have her2 : extractFirst (isPartnerOf a) (rest.filter (recCourt c))
                = some (pr.1, pr.2.filter (recCourt c)) :=
              extractFirst_filter_some himp2 (by rw [her])
            simp only [pairAuxF, hel, hel2, her, her2]
            rw [List.filter_cons_of_pos (by simp [blockCourt, hac])]
            rw [ih left pr.2 hr1]
          | none =>
            have her2 : extractFirst (isPartnerOf a) (rest.filter (recCourt c)) = none :=
              extractFirst_filter_none her
            simp only [pairAuxF, hel, hel2, her, her2]
            have : left.filter (recCourt c) ++ [a] = (left ++ [a]).filter (recCourt c) := by
              simp [List.filter_append, hra]
            rw [this, ih (left ++ [a]) rest hr]
      · have hra : recCourt c a = false := by simp [recCourt, hac]
        have himp2 : ∀ x, isPartnerOf a x = true → recCourt c x = false := by
          intro x hx; rw [himp x hx]; exact hra
        rw [List.filter_cons_of_neg (by simp [hra])]
        have hfl : (rest.filter (recCourt c)).length ≤ g :=
          le_trans (List.length_filter_le _ _) hr
        rw [pairAuxF_succ g (left.filter (recCourt c)) (rest.filter (recCourt c)) hfl]
        cases hel : extractFirst (isPartnerOf a) left with
        | some pr =>
          have hbc : blockCourt c (a, pr.1) = false := by simp [blockCourt, hac]
          have hfilt : pr.2.filter (recCourt c) = left.filter (recCourt c) :=
            extractFirst_filter_not (by rw [hel])
              (himp2 pr.1 (extractFirst_mem_prop (by rw [hel])))
          simp only [pairAuxF, hel]
          rw [List.filter_cons_of_neg (by simp [hbc])]
          rw [ih pr.2 rest hr, hfilt]
        | none =>
          cases her : extractFirst (isPartnerOf a) rest with
          | some pr =>
            have hr1 : pr.2.length ≤ g := by
              have hpr : extractFirst (isPartnerOf a) rest = some (pr.1, pr.2) := by rw [her]
              have := extractFirst_length hpr
              omega
            have hbc : blockCourt c (a, pr.1) = false := by simp [blockCourt, hac]
            have hfilt : pr.2.filter (recCourt c) = rest.filter (recCourt c) :=
              extractFirst_filter_not (by rw [her])
                (himp2 pr.1 (extractFirst_mem_prop (by rw [her])))
            have hfl1 : (pr.2.filter (recCourt c)).length ≤ g :=
              le_trans (List.length_filter_le _ _) hr1
            simp only [pairAuxF, hel, her]
            rw [List.filter_cons_of_neg (by simp [hbc])]
            rw [ih left pr.2 hr1, hfilt]
          | none =>
            simp only [pairAuxF, hel, her]
            have : (left ++ [a]).filter (recCourt c) = left.filter (recCourt c) := by
              simp [List.filter_append, hra]
            rw [ih (left ++ [a]) rest hr, this]

/-! ### Lemmas: the stable sort -/

theorem insertByLe_perm (le : α → α → Bool) (a : α) :
    ∀ (l : List α), (insertByLe le a l).Perm (a :: l) := by
  intro l
  induction l with
  | nil => simp [insertByLe]
  | cons b bs ih =>
    by_cases hab : le a b = true
    · simp [insertByLe, hab]
    · simp only [insertByLe, if_neg hab]
      exact (ih.cons b).trans (List.Perm.swap a b bs)

theorem stableSortBy_perm (le : α → α → Bool) :
    ∀ (l : List α), (stableSortBy le l).Perm l := by
  intro l
  induction l with
  | nil => simp [stableSortBy]
  | cons x xs ih =>
    have : stableSortBy le (x :: xs) = insertByLe le x (stableSortBy le xs) := rfl
    rw [this]
    exact (insertByLe_perm le x (stableSortBy le xs)).trans (ih.cons x)

theorem insertByLe_pairwise {le : α → α → Bool}
    (htot : ∀ a b, le a b = true ∨ le b a = true)
    (htrans : ∀ a b c, le a b = true → le b c = true → le a c = true)
    (a : α) : ∀ {l : List α}, l.Pairwise (fun x y => le x y = true) →
      (insertByLe le a l).Pairwise (fun x y => le x y = true) := by
  intro l
  induction l with
  | nil => intro _; simp [insertByLe]
  | cons b bs ih =>
    intro hl
    have hb : ∀ y ∈ bs, le b y = true := fun y hy => List.rel_of_pairwise_cons hl hy
    have hbs := hl.tail
    by_cases hab : le a b = true
    · simp only [insertByLe, if_pos hab]
      refine List.Pairwise.cons ?_ hl
      intro y hy
      rcases List.mem_cons.mp hy with h1 | h2
      · rw [h1]; exact hab
      · exact htrans a b y hab (hb y h2)
    · simp only [insertByLe, if_neg hab]
      have hba : le b a = true := (htot a b).resolve_left hab
      refine List.Pairwise.cons ?_ (ih hbs)
      intro y hy
      have : y = a ∨ y ∈ bs := List.mem_cons.mp ((insertByLe_perm le a bs).mem_iff.mp hy)
      rcases this with h1 | h2
      · rw [h1]; exact hba
      · exact hb y h2

theorem stableSortBy_pairwise {le : α → α → Bool}
    (htot : ∀ a b, le a b = true ∨ le b a = true)
    (htrans : ∀ a b c, le a b = true → le b c = true → le a c = true) :
    ∀ (l : List α), (stableSortBy le l).Pairwise (fun x y => le x y = true) := by
  intro l
  induction l with
  | nil => simp [stableSortBy]
  | cons x xs ih => exact insertByLe_pairwise htot htrans x ih

theorem sortParsed_perm (l : List PRec) : (sortParsed l).Perm l := stableSortBy_perm dtLE l

theorem sortParsed_pairwise (l : List PRec) :
    (sortParsed l).Pairwise (fun x y : PRec => x.2 ≤ y.2) := by
  have := @stableSortBy_pairwise PRec dtLE
    (fun a b => by simp only [dtLE, decide_eq_true_eq]; exact Int.le_total a.2 b.2)
    (fun a b c hab hbc => by
      simp only [dtLE, decide_eq_true_eq] at hab hbc ⊢
      exact le_trans hab hbc) l
  exact this.imp (fun h => by simpa [dtLE] using h)

/-- Two lists sorted by parsed time that are permutations of each other
and contain at most one record per timestamp are equal. -/
theorem sorted_perm_eq : ∀ {l1 l2 : List PRec},
    l1.Perm l2 →
    l1.Pairwise (fun x y : PRec => x.2 ≤ y.2) →
    l2.Pairwise (fun x y : PRec => x.2 ≤ y.2) →
    (∀ x ∈ l1, ∀ y ∈ l1, x.2 = y.2 → x = y) →
    l1 = l2 := by
  intro l1
  induction l1 with
  | nil =>
    intro l2 hp _ _ _
    exact (hp.nil_eq).symm.symm
  | cons a t1 ih =>
    intro l2 hp hs1 hs2 hinj
    match l2 with
    | [] => exact absurd hp.symm.nil_eq (by simp)
    | b :: t2 =>
      have hamem : a ∈ b :: t2 := hp.mem_iff.mp (by simp)
      have hbmem : b ∈ a :: t1 := hp.symm.mem_iff.mp (by simp)
      have hab : a = b := by
        have hle1 : a.2 ≤ b.2 := by
          rcases List.mem_cons.mp hbmem with h1 | h2
          · rw [h1]
          · exact List.rel_of_pairwise_cons hs1 h2
        have hle2 : b.2 ≤ a.2 := by
          rcases List.mem_cons.mp hamem with h1 | h2
          · rw [h1]
          · exact List.rel_of_pairwise_cons hs2 h2
        exact hinj a (by simp) b hbmem (le_antisymm hle1 hle2)
      subst hab
      have ht : t1.Perm t2 := hp.cons_inv
      have := ih ht hs1.tail hs2.tail
        (fun x hx y hy hxy => hinj x (by simp [hx]) y (by simp [hy]) hxy)
      rw [this]

/-! ### Lemmas: the parse pipeline -/

/-- The per-record view of `parseList`'s success path. -/
def parseOpt (now : Time) (r : SlotRec) : Option PRec :=
  match parse_time now r.time with
  | .parsed t => some (r, t)
  | _ => none

theorem parseList_ok : ∀ {now : Time} {d : List SlotRec} {p : List PRec},
    parseList now d = .ok p → p = d.filterMap (parseOpt now) := by
  intro now d
  induction d with
  | nil => intro p h; simp [parseList] at h; simp [h.symm]
  | cons r rs ih =>
    intro p h
    simp only [parseList] at h
    cases hr : parse_time now r.time with
    | raised => rw [hr] at h; exact absurd h (by simp)
    | noTime =>
      rw [hr] at h
      rw [List.filterMap_cons]
      simp only [parseOpt, hr]
      exact ih h
    | parsed t =>
      rw [hr] at h
      cases hrec : parseList now rs with
      | error e => rw [hrec] at h; exact absurd h (by simp)
      | ok ps =>
        rw [hrec] at h
        simp only [Except.ok.injEq] at h
        rw [List.filterMap_cons]
        simp only [parseOpt, hr]
        rw [← h, ih hrec]

theorem parseList_perm {now : Time} {d1 d2 : List SlotRec} {p1 p2 : List PRec}
    (hperm : d1.Perm d2) (h1 : parseList now d1 = .ok p1) (h2 : parseList now d2 = .ok p2) :
    p1.Perm p2 := by
  rw [parseList_ok h1, parseList_ok h2]
  exact hperm.filterMap (parseOpt now)

/-- Counting a `p`-positive element is unaffected by `p`-filtering, so
lists agreeing on every court filter agree on every count. -/
theorem count_eq_of_filter_eq [DecidableEq β] {l1 l2 : List β} {p : β → Bool} {b : β}
    (hp : p b = true) (h : l1.filter p = l2.filter p) : l1.count b = l2.count b := by
  have e1 : (l1.filter p).count b = l1.count b := List.count_filter hp
  have e2 : (l2.filter p).count b = l2.count b := List.count_filter hp
  rw [← e1, ← e2, h]

/-- Order-independence of the pairing phase under uniqueness of
`(court, parsed time)`: permuting the parsed records permutes the formed
pairs. -/
theorem group_pairs_perm_of {p1 p2 : List PRec}
    (hp : p1.Perm p2)
    (hinj : ∀ x ∈ p1, ∀ y ∈ p1, x.1.court = y.1.court → x.2 = y.2 → x = y) :
    (group_two_hour_pairs p1).Perm (group_two_hour_pairs p2) := by
  have hs : (sortParsed p1).Perm (sortParsed p2) :=
    (sortParsed_perm p1).trans (hp.trans (sortParsed_perm p2).symm)
  have hlen : (sortParsed p1).length = (sortParsed p2).length := hs.length_eq
  have key : ∀ c, (group_two_hour_pairs p1).filter (blockCourt c)
      = (group_two_hour_pairs p2).filter (blockCourt c) := by
    intro c
    have hfeq : (sortParsed p1).filter (recCourt c) = (sortParsed p2).filter (recCourt c) := by
      apply sorted_perm_eq (hs.filter (recCourt c))
        ((sortParsed_pairwise p1).filter _) ((sortParsed_pairwise p2).filter _)
      intro x hx y hy hxy
      have hcx : x.1.court = c := by
        have := List.of_mem_filter hx
        simpa [recCourt] using this
      have hcy : y.1.court = c := by
        have := List.of_mem_filter hy
        simpa [recCourt] using this
      exact hinj x ((sortParsed_perm p1).mem_iff.mp (List.mem_of_mem_filter hx))
        y ((sortParsed_perm p1).mem_iff.mp (List.mem_of_mem_filter hy))
        (hcx.trans hcy.symm) hxy
    have hf1 := pairAuxF_filter_court c (sortParsed p1).length [] (sortParsed p1) le_rfl
    have hf2 := pairAuxF_filter_court c (sortParsed p2).length [] (sortParsed p2) le_rfl
    simp only [List.filter_nil] at hf1 hf2
    show ((group_pairs_leftovers p1).1.filter (blockCourt c))
      = ((group_pairs_leftovers p2).1.filter (blockCourt c))
    unfold group_pairs_leftovers
    rw [hf1, hf2, hfeq, hlen]
  refine List.perm_iff_count.mpr ?_
  intro b
  exact count_eq_of_filter_eq (b := b) (p := blockCourt b.1.1.court) (by simp [blockCourt]) (key b.1.1.court)

/-! ### Lemmas: extraction horizon and drop-on-parse-failure -/

theorem mkSlotRecord_bounds {court_name dtStr status link rawText : String} {now : Time}
    {st? : Option Time} {e : ScrapedSlot} {t : Time}
    (h : mkSlotRecord court_name dtStr status link rawText now st? = some e)
    (ht : e.start = some t) : now ≤ t ∧ t ≤ now + 259200 := by
  cases st? with
  | none =>
    simp only [mkSlotRecord, if_pos] at h
    obtain rfl := Option.some.inj h
    simp at ht
  | some st =>
    simp only [mkSlotRecord] at h
    by_cases hk : (!(st > now + 259200) && !(st < now)) = true
    · rw [if_pos hk] at h
      simp only [Bool.and_eq_true, Bool.not_eq_true', decide_eq_false_iff_not] at hk
      obtain rfl := Option.some.inj h
      simp only [Option.some.injEq] at ht
      subst ht
      obtain ⟨hk1, hk2⟩ := hk
      simp only [gt_iff_lt, not_lt] at hk1 hk2
      exact ⟨hk2, hk1⟩
    · rw [if_neg hk] at h
      exact absurd h (by simp)

theorem processSpan_bounds {url : String} {now : Time} {today : Int} {court_name : String}
    {cell : CellEl} {sp : SpanEl} {e : ScrapedSlot} {t : Time}
    (h : processSpan url now today court_name cell sp = some e)
    (ht : e.start = some t) : now ≤ t ∧ t ≤ now + 259200 := by
  simp only [processSpan] at h
  split at h
  · exact absurd h (by simp)
  · split at h
    · exact absurd h (by simp)
    · split at h
      · exact absurd h (by simp)
      · split at h
        · exact absurd h (by simp)
        · exact mkSlotRecord_bounds h ht

/-- Every record `_scrape_court_schedule` emits whose datetime was
constructed lies in the inclusive window `[now, now + 72h]`. -/
theorem scrape_bounds {ctx : ScrapeCtx} {court_name : String} {e : ScrapedSlot} {t : Time}
    (he : e ∈ scrape_court_schedule ctx court_name) (ht : e.start = some t) :
    ctx.now ≤ t ∧ t ≤ ctx.now + 259200 := by
  unfold scrape_court_schedule at he
  split at he
  · exact absurd he (by simp)
  · split at he
    · exact absurd he (by simp)
    · obtain ⟨cell, _, hsp⟩ := List.mem_flatMap.mp he
      obtain ⟨sp, _, hps⟩ := List.mem_filterMap.mp hsp
      exact processSpan_bounds hps ht

/-- A span whose title holds no `h:00 AM/PM` pattern yields no record. -/
theorem processSpan_no_time_none {url : String} {now : Time} {today : Int}
    {court_name : String} {cell : CellEl} {sp : SpanEl}
    (h : timeMatchL sp.title.toList = none) :
    processSpan url now today court_name cell sp = none := by
  simp only [processSpan]
  split
  · rfl
  · split
    · rfl
    · split
      · rfl
      · split
        · rfl
        · rename_i heq
          rw [h] at heq
          exact absurd heq (by simp)

/-! ### Lemmas: notification matching, pairing consumption -/

theorem notifFor_eq (subs : List Subscription) (s : SlotRec) :
    notifFor subs s
      = (subs.filter (fun sub => specMatch s sub)).map
          (fun sub => (⟨sub.chat_id, s, sub⟩ : NotificationRequest)) := by
  cases hs : slotDayHour s with
  | none =>
    simp [notifFor, hs, specMatch, List.filter_eq_nil_iff]
  | some dh =>
    induction subs with
    | nil => simp [notifFor, hs]
    | cons sub rest ih =>
      simp only [notifFor, hs] at ih ⊢
      rw [List.filterMap_cons, List.filter_cons]
      by_cases hc : dh.1 = sub.day_of_week ∧ sub.start_hour ≤ dh.2 ∧ dh.2 ≤ sub.end_hour
      · have hm : specMatch s sub = true := by
          simp [specMatch, hs, hc.1, hc.2.1, hc.2.2]
        rw [if_pos hc, if_pos hm, List.map_cons, ih]
      · have hm : ¬specMatch s sub = true := by
          simp only [specMatch, hs, Bool.and_eq_true, decide_eq_true_eq]
          intro hcon
          exact hc ⟨hcon.1.1, hcon.1.2, hcon.2⟩
        rw [if_neg hc, if_neg hm, ih]

theorem group_consumed_and_leftovers_perm (parsed : List PRec) :
    ((group_two_hour_pairs parsed).flatMap (fun p => [p.1, p.2])
      ++ group_leftovers parsed).Perm parsed := by
  have h := pairAuxF_perm (sortParsed parsed).length [] (sortParsed parsed) le_rfl
  simp only [List.nil_append] at h
  exact h.trans (sortParsed_perm parsed)

/-! ### Concrete instances used by the claim theorems -/

/-- A reference instant: Sunday 2025-12-14, 09:00 local time. -/
def T0 : Time := 20436 * 86400 + 9 * 3600

/-- Court 01, 2025-12-18 10:00 AM, link `L1`. -/
def rA10a : SlotRec := ⟨"Court 01", "2025-12-18 10:00 AM", "Open", some "L1", ""⟩

/-- A duplicate of `rA10a` except for its booking link. -/
def rA10b : SlotRec := ⟨"Court 01", "2025-12-18 10:00 AM", "Open", some "L2", ""⟩

/-- Court 01, 2025-12-18 11:00 AM. -/
def rA11 : SlotRec := ⟨"Court 01", "2025-12-18 11:00 AM", "Open", some "L3", ""⟩

/-- Court 01, 2025-12-18 12:00 PM. -/
def rA12 : SlotRec := ⟨"Court 01", "2025-12-18 12:00 PM", "Open", some "L4", ""⟩

/-- Court 02, 2025-12-18 11:00 AM. -/
def rB11 : SlotRec := ⟨"Court 02", "2025-12-18 11:00 AM", "Open", some "L5", ""⟩

/-- The parsed timestamps of the records above (2025-12-18 is day 20440). -/
def t10 : Time := 20440 * 86400 + 10 * 3600

/-- Timestamp 2025-12-18 11:00. -/
def t11 : Time := 20440 * 86400 + 11 * 3600

/-- Timestamp 2025-12-18 12:00. -/
def t12 : Time := 20440 * 86400 + 12 * 3600

/-- A detail page whose every court mention is `Court 12`. -/
def pg12 : PageState := ⟨"Court 12 - Weekly Schedule", [], "", "https://x.perfectmind.com/s", true⟩

/-- A detail page for Court 01. -/
def pg01 : PageState := ⟨"Court 01 - Weekly Schedule", [], "", "https://x.perfectmind.com/s", true⟩

/-- A bookable 10:00 AM cell in today's column. -/
def cellA : CellEl := ⟨[⟨"10:00 AM-11:00 AM", "Book Now"⟩], some 2, some "https://b/link", none⟩

/-- A bookable 9:00 AM cell three day-columns ahead (left = 2 + 3·208). -/
def cellB : CellEl := ⟨[⟨"9:00 AM-10:00 AM", "Book Now"⟩], some 626, some "https://b2", none⟩

/-- A bookable cell whose span title carries the malformed time
`13:00 PM`. -/
def cellC : CellEl := ⟨[⟨"13:00 PM-14:00 PM", "Book Now"⟩], some 2, some "u9", none⟩

/-- Scrape context: Court 12's page loaded, Court 01 requested. -/
def ctx1 : ScrapeCtx := ⟨pg12, T0, [cellA]⟩

/-- Scrape context on Court 01's page with the boundary slot exactly 72
hours ahead of `now`. -/
def ctx2 : ScrapeCtx := ⟨pg01, T0, [cellB]⟩

/-- Scrape context on Court 01's page with the malformed `13:00 PM`
span. -/
def ctx9 : ScrapeCtx := ⟨pg01, T0, [cellC]⟩

/-- A pre-existing Supabase row. -/
def row0 : SupabaseRow := ⟨"Court 01", 100, "Open", "", "", 0⟩

/-- Subscription: Wednesday 8-22. -/
def wedSub : Subscription := ⟨"chat1", "Wednesday", 8, 22⟩

/-- A slot on Wednesday 2025-12-17 at 09:00 AM. -/
def sW9 : SlotRec := ⟨"Court 01", "2025-12-17 09:00 AM", "Open", some "L", ""⟩

/-- A slot on Wednesday 2025-12-17 at 07:00 AM. -/
def sW7 : SlotRec := ⟨"Court 01", "2025-12-17 07:00 AM", "Open", some "L", ""⟩

/-! ### C1 -/

/-- C1 (code bug): the verification predicate is prefix-unsafe.  After a
request for `Court 01`, a page whose title (and all content) says
`Court 12` — and which nowhere contains the text `Court 01` — still
passes `_verify_court_on_page`, because the pattern `Court\s+1` matches
the prefix of `Court 12`; `_scrape_court_schedule` then emits a record
tagged `Court 01` from Court 12's schedule.  The claim (and the spec's
verification-safety property) says content for another court must never
verify. -/
theorem C1_wrong_court_page_verifies_and_emits :
    strContains pg12.title "Court 01" = false
    ∧ verify_court_on_page pg12 "Court 12" = true
    ∧ verify_court_on_page pg12 "Court 01" = true
    ∧ scrape_court_schedule ctx1 "Court 01"
        = [⟨"Court 01", "2025-12-14 10:00 AM", "Open", "https://b/link", "Book Now",
            some (T0 + 3600)⟩] := by
  refine ⟨by decide, by decide, by decide, by decide⟩

/-! ### C2 -/

/-- C2 (counterexample): the horizon filter uses a strict `>`, so a slot
starting exactly at `now + 72h` is included, not excluded: on Court 01's
page, the 9:00 AM cell three days ahead (exactly 72 hours after `now` =
Sunday 09:00) is emitted. -/
theorem C2_boundary_slot_included :
    (⟨"Court 01", "2025-12-17 9:00 AM", "Open", "https://b2", "Book Now",
        some (ctx2.now + 259200)⟩ : ScrapedSlot)
      ∈ scrape_court_schedule ctx2 "Court 01" := by
  decide

/-- C2 (amended): every record `_scrape_court_schedule` emits whose
datetime was constructed satisfies `now ≤ start ≤ now + 72h` — the window
is inclusive at both ends (a slot at exactly `now` is included, and so is
one at exactly `now + 72h`); records whose datetime construction raised
carry no timestamp and bypass the filter. -/
theorem C2_slots_within_inclusive_horizon (ctx : ScrapeCtx) (court_name : String)
    (e : ScrapedSlot) (t : Time)
    (he : e ∈ scrape_court_schedule ctx court_name) (ht : e.start = some t) :
    ctx.now ≤ t ∧ t ≤ ctx.now + 259200 := by
  unfold scrape_court_schedule at he
  split at he
  · exact absurd he (by simp)
  · split at he
    · exact absurd he (by simp)
    · obtain ⟨cell, _, hsp⟩ := List.mem_flatMap.mp he
      obtain ⟨sp, _, hps⟩ := List.mem_filterMap.mp hsp
      exact processSpan_bounds hps ht

/-- C2 witness: the inclusive bounds instantiated at the boundary record
of `ctx2`. -/
theorem C2_slots_within_inclusive_horizon_witness :
    ctx2.now ≤ ctx2.now + 259200 ∧ ctx2.now + 259200 ≤ ctx2.now + 259200 :=
  C2_slots_within_inclusive_horizon ctx2 "Court 01"
    ⟨"Court 01", "2025-12-17 9:00 AM", "Open", "https://b2", "Book Now",
      some (ctx2.now + 259200)⟩
    (ctx2.now + 259200) (by decide) (by decide)

/-! ### C3 -/

/-- C3 (counterexample): a failed run does not leave the prior stored
data untouched.  With one stored row, an empty scrape result and a
successful delete request, the function reports failure yet the store
has already been truncated to empty. -/
theorem C3_failed_run_erases_store :
    (clean_and_upload_to_supabase [row0] [] 0 true true).2 = false
    ∧ (clean_and_upload_to_supabase [row0] [] 0 true true).1 = []
    ∧ (clean_and_upload_to_supabase [row0] [] 0 true true).1 ≠ [row0] := by
  refine ⟨by decide, by decide, by decide⟩

/-- C3 (amended): `clean_and_upload_to_supabase` first attempts to delete
all rows with `start_time ≥ 1970-01-01` — a failed delete is caught and
the run proceeds with the old rows still in place — and only then
validates and inserts.  A run returns `True` exactly when some row
cleaned and the insert succeeds, and the resulting store is the
truncation outcome (the pre-1970 survivors when the delete succeeded,
the untouched old rows when it failed) followed, on success only, by the
new snapshot.  So no run is replace-all atomic in general: a failed run
after a successful delete has already lost the prior data, and a
successful run after a failed delete returns `True` with the old rows
accumulated alongside the new ones. -/
theorem C3_truncate_then_insert_semantics (store : List SupabaseRow)
    (json_data : List SlotRec) (nowUtc : Time) (deleteOk insertOk : Bool) :
    ((clean_and_upload_to_supabase store json_data nowUtc deleteOk insertOk).2 = true
      ↔ json_data.filterMap (cleanRow nowUtc) ≠ [] ∧ insertOk = true)
    ∧ ((clean_and_upload_to_supabase store json_data nowUtc deleteOk insertOk).2 = true →
        (clean_and_upload_to_supabase store json_data nowUtc deleteOk insertOk).1
          = (if deleteOk then store.filter (fun r => ¬(r.start_time ≥ 0)) else store)
            ++ json_data.filterMap (cleanRow nowUtc))
    ∧ ((clean_and_upload_to_supabase store json_data nowUtc deleteOk insertOk).2 = false →
        (clean_and_upload_to_supabase store json_data nowUtc deleteOk insertOk).1
          = (if deleteOk then store.filter (fun r => ¬(r.start_time ≥ 0)) else store)) := by
  unfold clean_and_upload_to_supabase
  by_cases he : (json_data.filterMap (cleanRow nowUtc)).isEmpty = true
  · have hnil : json_data.filterMap (cleanRow nowUtc) = [] := by
      simpa using he
    simp [he, hnil]
  · have hne : json_data.filterMap (cleanRow nowUtc) ≠ [] := fun hh => he (by simp [hh])
    cases insertOk with
    | true => simp [he, hne]
    | false => simp [he]

/-- C3 witness: the success-path store equation instantiated at one
stored row, one parseable scraped slot and a failed delete request: the
run returns `True` while the old row survives alongside the newly
inserted one. -/
theorem C3_truncate_then_insert_semantics_witness :
    (clean_and_upload_to_supabase [row0] [sW9] 5 false true).1
      = (if false then [row0].filter (fun r => ¬(r.start_time ≥ 0)) else [row0])
        ++ [sW9].filterMap (cleanRow 5) :=
  (C3_truncate_then_insert_semantics [row0] [sW9] 5 false true).2.1 (by decide)

/-! ### C4 -/

/-- C4 (counterexample): pairing is not order-independent on every list.
Two records that differ only in their booking link share the court and
the parsed time `2025-12-18 10:00`; which of them is consumed into the
two-hour block depends on the input order, so the two permutations yield
different block sets (one block carries link `L1`, the other `L2`). -/
theorem C4_duplicate_records_break_order_independence :
    ([rA10a, rA10b, rA11]).Perm [rA10b, rA10a, rA11]
    ∧ parseList T0 [rA10a, rA10b, rA11] = .ok [(rA10a, t10), (rA10b, t10), (rA11, t11)]
    ∧ parseList T0 [rA10b, rA10a, rA11] = .ok [(rA10b, t10), (rA10a, t10), (rA11, t11)]
    ∧ mkGroupTwoHour ((rA10a, t10), (rA11, t11))
        ∈ group_two_hour_blocks [(rA10a, t10), (rA10b, t10), (rA11, t11)]
    ∧ mkGroupTwoHour ((rA10a, t10), (rA11, t11))
        ∉ group_two_hour_blocks [(rA10b, t10), (rA10a, t10), (rA11, t11)] := by
  refine ⟨List.Perm.swap rA10b rA10a [rA11], by rfl, by rfl, by decide, by decide⟩

/-- C4 (amended): the pairing phase of `group_slots_by_time_block` is
order-independent provided no two records share both a court and a
parsed timestamp: for permuted inputs the two-hour block multisets are
equal.  (The sort is by time only, so equal-time records on one court are
interchangeable by input order, which is exactly what the
counterexample exploits; with the uniqueness hypothesis the per-court
sorted sequences are canonical and pairing decomposes per court.) -/
theorem C4_pairing_order_independent_on_unique_records (now : Time)
    (d1 d2 : List SlotRec) (p1 p2 : List PRec)
    (hperm : d1.Perm d2)
    (h1 : parseList now d1 = .ok p1) (h2 : parseList now d2 = .ok p2)
    (hinj : ∀ x ∈ p1, ∀ y ∈ p1, x.1.court = y.1.court → x.2 = y.2 → x = y) :
    (group_two_hour_blocks p1).Perm (group_two_hour_blocks p2) :=
  (group_pairs_perm_of (parseList_perm hperm h1 h2) hinj).map mkGroupTwoHour

/-- C4 witness: the order-independence instantiated at a rotated
three-record list with pairwise distinct (court, time). -/
theorem C4_pairing_order_independent_on_unique_records_witness :
    ([rA11, rA10a, rB11]).Perm [rA10a, rB11, rA11]
    ∧ parseList T0 [rA11, rA10a, rB11] = .ok [(rA11, t11), (rA10a, t10), (rB11, t11)]
    ∧ parseList T0 [rA10a, rB11, rA11] = .ok [(rA10a, t10), (rB11, t11), (rA11, t11)]
    ∧ (∀ x ∈ [(rA11, t11), (rA10a, t10), (rB11, t11)],
        ∀ y ∈ [(rA11, t11), (rA10a, t10), (rB11, t11)],
          x.1.court = y.1.court → x.2 = y.2 → x = y)
    ∧ (group_two_hour_blocks [(rA11, t11), (rA10a, t10), (rB11, t11)]).Perm
        (group_two_hour_blocks [(rA10a, t10), (rB11, t11), (rA11, t11)]) := by
  have hperm : ([rA11, rA10a, rB11]).Perm [rA10a, rB11, rA11] :=
    ((List.Perm.swap rA10a rA11 [rB11]).trans
      (List.Perm.cons rA10a (List.Perm.swap rB11 rA11 [])))
  refine ⟨hperm, by rfl, by rfl, by decide, ?_⟩
  exact C4_pairing_order_independent_on_unique_records T0 [rA11, rA10a, rB11]
    [rA10a, rB11, rA11] _ _ hperm (by rfl) (by rfl) (by decide)

/-! ### C5 -/

/-- C5 (counterexample): `find_two_hour_slots` keeps no consumed set, so
with three consecutive hours on one court the middle record is the second
hour of the first block and the first hour of the second block — one
record in two blocks (it occurs twice among the consumed records but only
once in the input). -/
theorem C5_find_two_reuses_middle_record :
    parseList T0 [rA10a, rA11, rA12] = .ok [(rA10a, t10), (rA11, t11), (rA12, t12)]
    ∧ find_two_pairs [(rA10a, t10), (rA11, t11), (rA12, t12)]
        = [((rA10a, t10), (rA11, t11)), ((rA11, t11), (rA12, t12))]
    ∧ List.count ((rA11 : SlotRec), t11)
        ((find_two_pairs [(rA10a, t10), (rA11, t11), (rA12, t12)]).flatMap
          (fun p => [p.1, p.2])) = 2
    ∧ List.count ((rA11 : SlotRec), t11) [(rA10a, t10), (rA11, t11), (rA12, t12)] = 1 := by
  refine ⟨by rfl, by decide, by decide, by decide⟩

/-- C5 (amended): the pairing phase of `group_slots_by_time_block` does
satisfy the claim — its consumed records form a sub-multiset of the
input, so no record (counted with multiplicity) is consumed into two
blocks; `find_two_hour_slots`, by contrast, can reuse a record, as the
counterexample shows. -/
theorem C5_group_pairing_consumes_each_record_once (parsed : List PRec) :
    ((group_two_hour_pairs parsed).flatMap (fun p => [p.1, p.2])).Subperm parsed :=
  (List.sublist_append_left _ _).subperm.trans
    (group_consumed_and_leftovers_perm parsed).subperm

/-! ### C6 -/

/-- C6 (confirmed): the two-hour pairs and the one-hour leftovers of
`group_slots_by_time_block` partition the parsed records — consumed
records plus leftovers are a permutation of the input, so a record
(counted with multiplicity) is never in both a two-hour group and a
one-hour group.  The returned events are built from exactly these two
disjoint collections (`group_slots_by_time_block` groups
`group_two_hour_blocks` and `group_leftovers` separately). -/
theorem C6_pairs_and_leftovers_partition_records (parsed : List PRec) :
    (((group_two_hour_pairs parsed).flatMap (fun p => [p.1, p.2]))
      ++ group_leftovers parsed).Perm parsed :=
  group_consumed_and_leftovers_perm parsed

/-! ### C7 -/

/-- C7 (code bug): `find_one_hour_slots` marks the claimed hour of a
detected pair globally by `(date, hour)` with no court, so the unrelated
Court 02 record at 11:00 — which the pairing phase itself leaves
unconsumed — is suppressed and the function returns no one-hour slots at
all, contradicting both the claim and the function's own docstring
("slots not part of a 2-hour booking"). -/
theorem C7_unconsumed_single_suppressed :
    parseList T0 [rA10a, rA11, rB11] = .ok [(rA10a, t10), (rA11, t11), (rB11, t11)]
    ∧ find_one_hour_slots T0 [rA10a, rA11, rB11] = .ok []
    ∧ group_two_hour_pairs [(rA10a, t10), (rA11, t11), (rB11, t11)]
        = [((rA10a, t10), (rA11, t11))]
    ∧ group_leftovers [(rA10a, t10), (rA11, t11), (rB11, t11)] = [(rB11, t11)] := by
  refine ⟨by rfl, by rfl, by decide, by decide⟩

/-! ### C8 -/

/-- C8 (confirmed): `process_notifications` produces, slot-major, exactly
one request for every (slot, subscription) pair whose day matches and
whose inclusive hour range contains the slot's hour, and none otherwise;
in particular the Wednesday 8-22 subscription yields exactly one request
against the Wednesday 09:00 AM slot and none against the 07:00 AM slot. -/
theorem C8_exactly_one_request_per_matching_pair (slots : List SlotRec)
    (subs : List Subscription) :
    process_notifications slots subs
      = slots.flatMap (fun s => (subs.filter (fun sub => specMatch s sub)).map
          (fun sub => (⟨sub.chat_id, s, sub⟩ : NotificationRequest)))
    ∧ (process_notifications [sW9] [wedSub]).length = 1
    ∧ (process_notifications [sW7] [wedSub]).length = 0 := by
  refine ⟨?_, by decide, by decide⟩
  unfold process_notifications
  rw [funext (notifFor_eq subs)]

/-! ### C9 -/

/-- C9 (counterexample): a record whose timestamp text cannot be parsed
into a datetime is not always dropped.  A span titled `13:00 PM-14:00 PM`
matches the time regex, the 12-hour conversion yields hour 25, the
`datetime` construction raises — and the source logs the error and
includes the record anyway, with a time string no parser accepts. -/
theorem C9_unparseable_datetime_included :
    (⟨"Court 01", "2025-12-14 13:00 PM", "Open", "u9", "Book Now", none⟩ : ScrapedSlot)
      ∈ scrape_court_schedule ctx9 "Court 01"
    ∧ parseCleanTime "2025-12-14 13:00 PM" = none
    ∧ parse_time T0 "2025-12-14 13:00 PM" = .raised := by
  refine ⟨by decide, by rfl, by rfl⟩

/-- C9 (amended): a span whose title carries no `h:00 AM/PM` time pattern
is dropped and processing continues with the remaining spans — removing
it leaves the emitted record list unchanged.  (When the pattern matches
but the datetime construction fails, the record is included instead, as
the counterexample shows.) -/
theorem C9_patternless_span_dropped (url : String) (now : Time) (today : Int)
    (court_name : String) (cell : CellEl) (sp : SpanEl) (pre post : List SpanEl)
    (h : timeMatchL sp.title.toList = none) :
    (pre ++ sp :: post).filterMap (processSpan url now today court_name cell)
      = (pre ++ post).filterMap (processSpan url now today court_name cell) := by
  rw [List.filterMap_append, List.filterMap_append, List.filterMap_cons,
    processSpan_no_time_none h]

/-- C9 witness: dropping a patternless span between two bookable spans. -/
theorem C9_patternless_span_dropped_witness :
    timeMatchL ("Closed for maintenance" : String).toList = none
    ∧ ([⟨"10:00 AM-11:00 AM", "Book Now"⟩, ⟨"Closed for maintenance", "Book Now"⟩,
        ⟨"11:00 AM-12:00 PM", "Book Now"⟩] : List SpanEl).filterMap
          (processSpan "u" T0 20436 "Court 01" cellA)
      = ([⟨"10:00 AM-11:00 AM", "Book Now"⟩,
          ⟨"11:00 AM-12:00 PM", "Book Now"⟩] : List SpanEl).filterMap
          (processSpan "u" T0 20436 "Court 01" cellA) :=
  ⟨by decide,
    C9_patternless_span_dropped "u" T0 20436 "Court 01" cellA
      ⟨"Closed for maintenance", "Book Now"⟩
      [⟨"10:00 AM-11:00 AM", "Book Now"⟩] [⟨"11:00 AM-12:00 PM", "Book Now"⟩]
      (by decide)⟩

/-! ### C10 -/

/-- C10 (counterexample): a string that contains the clock time
`3:00 PM` but no parseable date does not come back as today at 15:00 —
the fallback uses the first `hh:mm AM/PM` match, here `99:30 AM`, whose
hour is invalid, so `_parse_time` raises an uncaught `ValueError`
instead of returning. -/
theorem C10_invalid_first_fragment_raises :
    strContains "99:30 AM or 3:00 PM" "3:00 PM" = true
    ∧ tryFormatsApp "99:30 AM or 3:00 PM" = none
    ∧ parse_time 0 "99:30 AM or 3:00 PM" = .raised := by
  refine ⟨by decide, by rfl, by rfl⟩

/-- C10 (amended): when no full datetime format matches, `_parse_time`
falls back to the FIRST `hh:mm AM/PM` fragment; if its adjusted hour and
minute are in range the result is today's date (taken from `now`)
combined with that clock time, seconds zero; and the result is `None`
exactly when the string is empty or has neither a full pattern nor any
fragment.  (A first fragment with an out-of-range hour or minute makes
the function raise, per the counterexample.) -/
theorem C10_fallback_combines_today_with_clock_time (now : Time) (s : String)
    (hne : s ≠ "") (hfmt : tryFormatsApp s = none) :
    (∀ h mi ap, fallbackMatch s.toList = some (h, mi, ap) →
      pyAdjHour h ap ≤ 23 → mi ≤ 59 →
      parse_time now s
        = .parsed (dateOf now * 86400 + (pyAdjHour h ap : Int) * 3600 + (mi : Int) * 60))
    ∧ (parse_time now s = .noTime ↔ fallbackMatch s.toList = none) := by
  constructor
  · intro h mi ap hfb hh hm
    simp only [parse_time, if_neg hne, hfmt, hfb]
    rw [if_pos ⟨hh, hm⟩]
  · cases hfb : fallbackMatch s.toList with
    | none =>
      simp only [parse_time, if_neg hne, hfmt]
      rw [hfb]
      simp
    | some r =>
      simp only [parse_time, if_neg hne, hfmt, hfb]
      constructor
      · intro hcon
        split at hcon <;> exact absurd hcon (by simp)
      · intro hcon
        exact absurd hcon (by simp)

/-- C10 witness: the fallback at a date-less string containing
`3:00 PM`, evaluated at a concrete `now` (2025-12-14 09:00): the result
is 2025-12-14 at 15:00. -/
theorem C10_fallback_combines_today_with_clock_time_witness :
    parse_time T0 "court opens 3:00 PM"
      = .parsed (20436 * 86400 + 15 * 3600) :=
  (C10_fallback_combines_today_with_clock_time T0 "court opens 3:00 PM"
      (by decide) (by rfl)).1 3 0 "PM" (by rfl) (by decide) (by decide)
